import Mathlib

/-!
Shallow embedding of the ortalab round-scoring core
(src/src/poker/{hands,helpers,modifiers,jokers,scoring}.rs).

Conventions of the embedding:
* Rust f64 chip/mult values are modelled as rationals; every arithmetic
  operation performed by the program on these values (+, *, comparisons
  against small integer constants) is exact on its reachable values.
* Rust operations that can panic (Option::unwrap on an empty iterator)
  are modelled with Option: a panic is None.
* Rust HashMap/HashSet iteration order is unspecified; where the source
  collects such a container into a Vec (is_straight, is_straight_flush,
  compute_most_appear_suit tie-breaks) the embedding fixes a canonical
  order (insertion order / first maximum) and the development treats the
  order as semantically relevant where a claim depends on it.
-/

namespace Ortalab

/-- Modelled from the spec (section 3): a rank is one of 13 ordered values. -/
inductive Rank where
  | Two | Three | Four | Five | Six | Seven | Eight | Nine | Ten
  | Jack | Queen | King | Ace
deriving DecidableEq, Repr

/-- Modelled from the spec (section 3): four suits. -/
inductive Suit where
  | Hearts | Diamonds | Spades | Clubs
deriving DecidableEq, Repr

/-- Modelled from the spec (section 4.1): two suit colors. -/
inductive SuitColor where
  | Red | Black
deriving DecidableEq, Repr

/-- Modelled from the spec (section 4.3): per-card enhancements. -/
inductive Enhancement where
  | Bonus | Mult | Wild | Glass | Steel
deriving DecidableEq, Repr

/-- Modelled from the spec (section 4.3): per-card editions. -/
inductive Edition where
  | Foil | Holographic | Polychrome
deriving DecidableEq, Repr

/-- Modelled from the spec (section 3): a card is a rank, a suit and
optional enhancement and edition; pure value type. -/
structure Card where
  rank : Rank
  suit : Suit
  enhancement : Option Enhancement := none
  edition : Option Edition := none
deriving DecidableEq, Repr

/-- Modelled from the spec (section 4.4): the joker variants named by the
rule tables of the source (jokers.rs). -/
inductive Joker where
  | Joker | JollyJoker | ZanyJoker | MadJoker | CrazyJoker | DrollJoker
  | SlyJoker | WilyJoker | CleverJoker | DeviousJoker | CraftyJoker
  | AbstractJoker | Blackboard | FlowerPot
  | GreedyJoker | LustyJoker | WrathfulJoker | GluttonousJoker
  | Fibonacci | ScaryFace | EvenSteven | OddTodd | Photograph | SmileyFace
  | SockAndBuskin | RaisedFist | Baron | Mime
  | Pareidolia | SmearedJoker | FourFingers | Splash
deriving DecidableEq, Repr

/-- Modelled from the spec (section 3): a joker card is a joker variant
plus an optional edition. -/
structure JokerCard where
  joker : Joker
  edition : Option Edition := none
deriving DecidableEq, Repr

/-- Modelled from the spec (section 3): a round. -/
structure Round where
  cards_played : List Card
  cards_held_in_hand : List Card
  jokers : List JokerCard
deriving DecidableEq, Repr

/-- Modelled from the spec (section 3): the closed enumeration of 12
combinations. -/
inductive PokerHand where
  | HighCard | Pair | TwoPair | ThreeOfAKind | Straight | Flush
  | FullHouse | FourOfAKind | StraightFlush | FiveOfAKind | FlushHouse
  | FlushFive
deriving DecidableEq, Repr

/-- Modelled from the spec (section 4.1, rank_order) and identical to the
rank mapping of compute_card_order in src/src/poker/hands.rs: the
ortalib rank_value function. -/
def Rank.rank_value : Rank → ℚ
  | .Two => 2 | .Three => 3 | .Four => 4 | .Five => 5 | .Six => 6
  | .Seven => 7 | .Eight => 8 | .Nine => 9 | .Ten => 10
  | .Jack => 11 | .Queen => 12 | .King => 13 | .Ace => 14

/-- Modelled from the spec (section 4.1): Jack, Queen, King are faces. -/
def Rank.is_face : Rank → Prop
  | .Jack => True | .Queen => True | .King => True | _ => False

instance (r : Rank) : Decidable r.is_face := by
  cases r <;> simp [Rank.is_face] <;> infer_instance

/-- Modelled from the spec (section 4.1): Hearts/Diamonds are Red,
Spades/Clubs are Black (the ortalib Suit::color function). -/
def Suit.color : Suit → SuitColor
  | .Hearts => .Red | .Diamonds => .Red | .Spades => .Black | .Clubs => .Black

/-- Modelled from the spec (section 3) and the per-hand base-scoring doc
comments in src/src/poker/hands.rs: the ortalib hand_value table. -/
def hand_value : PokerHand → ℚ × ℚ
  | .HighCard => (5, 1)
  | .Pair => (10, 2)
  | .TwoPair => (20, 2)
  | .ThreeOfAKind => (30, 3)
  | .Straight => (30, 4)
  | .Flush => (35, 4)
  | .FullHouse => (40, 4)
  | .FourOfAKind => (60, 4)
  | .StraightFlush => (100, 8)
  | .FiveOfAKind => (120, 12)
  | .FlushHouse => (140, 14)
  | .FlushFive => (160, 16)

/-- compute_card_order (src/src/poker/hands.rs, lines 659-675). -/
def compute_card_order (card : Card) : ℚ :=
  match card.rank with
  | .Two => 2 | .Three => 3 | .Four => 4 | .Five => 5 | .Six => 6
  | .Seven => 7 | .Eight => 8 | .Nine => 9 | .Ten => 10
  | .Jack => 11 | .Queen => 12 | .King => 13 | .Ace => 14

/-- compute_most_appear_suit (src/src/poker/helpers.rs, lines 36-44):
count of cards of one suit, the counts_by closure keyed on c.suit. -/
def suit_count (cards : List Card) (s : Suit) : ℕ :=
  (cards.filter (fun c => c.suit = s)).length

/-- compute_most_appear_suit (src/src/poker/helpers.rs, lines 36-44):
the suit occurring most often; None (panic) on an empty slice. The
source breaks ties in the unspecified iteration order of a HashMap; the
embedding fixes the tie-break to the first maximum in the order
Hearts, Diamonds, Spades, Clubs. A suit absent from the cards has count
0 and can never beat the true maximum (which is at least 1), so folding
over all four suits agrees with the source's fold over present suits. -/
def compute_most_appear_suit (cards : List Card) : Option Suit :=
  match cards with
  | [] => none
  | _ =>
    some (([Suit.Diamonds, Suit.Spades, Suit.Clubs] : List Suit).foldl
      (fun best s => if suit_count cards best < suit_count cards s then s else best)
      Suit.Hearts)

/-- determine_current_suit (src/src/poker/helpers.rs, lines 70-81). -/
def determine_current_suit (on_scored : List Card) (suit : Suit) : Bool :=
  on_scored.any (fun c =>
    if c.suit = suit then true
    else if c.enhancement = some Enhancement.Wild then true
    else false)

/-- determine_total_colors (src/src/poker/helpers.rs, lines 107-122). -/
def determine_total_colors (on_scored : List Card) (color : SuitColor) : Bool :=
  2 ≤ (on_scored.filter (fun c =>
    if c.suit.color = color then true
    else if c.enhancement = some Enhancement.Wild then true
    else false)).length

/-- The stable ascending insertion of a card into a list already sorted
by compute_card_order (a new card goes after existing equal keys). -/
def insert_sorted (c : Card) : List Card → List Card
  | [] => [c]
  | x :: xs =>
    if compute_card_order c < compute_card_order x then c :: x :: xs
    else x :: insert_sorted c xs

/-- The stable sort by compute_card_order performed at the top of
determine_poker_hand (src/src/poker/hands.rs, lines 716-720,
sorted_by_key over OrderedFloat of compute_card_order). -/
def sort_cards (cards : List Card) : List Card :=
  cards.foldl (fun acc c => insert_sorted c acc) []

/-- is_high_card (src/src/poker/hands.rs, lines 46-54): the max_by_key
over rank_value keeps the last maximum, as Rust's max_by_key does;
None (panic of unwrap) on an empty slice. -/
def is_high_card (cards : List Card) : Option (List Card) :=
  match cards with
  | [] => none
  | c :: rest =>
    some [rest.foldl (fun best x =>
      if best.rank.rank_value ≤ x.rank.rank_value then x else best) c]

/-- is_pair (src/src/poker/hands.rs, lines 77-89): first adjacent window
of equal card order, then break. -/
def is_pair : List Card → List Card
  | curr :: next :: rest =>
    if compute_card_order curr = compute_card_order next then [curr, next]
    else is_pair (next :: rest)
  | _ => []

/-- is_two_pair (src/src/poker/hands.rs, lines 119-139): loop over
adjacent windows with the prev_rank sentinel (0.0 initially; card orders
are never 0). -/
def is_two_pair_go (prev : ℚ) (acc : List Card) : List Card → List Card
  | curr :: next :: rest =>
    let co := compute_card_order curr
    let no := compute_card_order next
    if prev ≠ 0 then
      if co = no ∧ co ≠ prev then is_two_pair_go prev (acc ++ [curr, next]) (next :: rest)
      else is_two_pair_go prev acc (next :: rest)
    else if co = no then is_two_pair_go co (acc ++ [curr, next]) (next :: rest)
    else is_two_pair_go prev acc (next :: rest)
  | _ => acc

/-- is_two_pair (src/src/poker/hands.rs, lines 119-139). -/
def is_two_pair (cards : List Card) : List Card :=
  is_two_pair_go 0 [] cards

/-- is_three_of_a_kind (src/src/poker/hands.rs, lines 175-195): the
ptr::eq check against cards.last() is positional, true exactly on the
final window (rest empty). -/
def is_three_go (prev : ℚ) (acc : List Card) : List Card → List Card
  | curr :: next :: rest =>
    let co := compute_card_order curr
    let no := compute_card_order next
    if co = no then
      let acc1 := acc ++ [curr]
      let acc2 := if rest.isEmpty then acc1 ++ [next] else acc1
      is_three_go co acc2 (next :: rest)
    else if co = prev then is_three_go prev (acc ++ [curr]) (next :: rest)
    else is_three_go prev acc (next :: rest)
  | _ => acc

/-- is_three_of_a_kind (src/src/poker/hands.rs, lines 175-195). -/
def is_three_of_a_kind (cards : List Card) : List Card :=
  is_three_go 0 [] cards

/-- is_straight (src/src/poker/hands.rs, lines 220-244): one window step
of the loop; the HashMap key set is modelled as a duplicate-free list in
insertion order, the clear() resets it. -/
def straight_step (acc : List Card) (curr next : Card) : List Card :=
  let co := compute_card_order curr
  let no := compute_card_order next
  if no - co = 1 then
    let acc1 := if curr ∈ acc then acc else acc ++ [curr]
    if next ∈ acc1 then acc1 else acc1 ++ [next]
  else if next.rank = Rank.Ace ∧ curr.rank = Rank.Five then
    if next ∈ acc then acc else acc ++ [next]
  else []

/-- is_straight (src/src/poker/hands.rs, lines 220-244): the loop over
adjacent windows. The source finally collects the HashMap keys in
unspecified iteration order; the embedding returns insertion order. -/
def is_straight_go (acc : List Card) : List Card → List Card
  | curr :: next :: rest => is_straight_go (straight_step acc curr next) (next :: rest)
  | _ => acc

/-- is_straight (src/src/poker/hands.rs, lines 220-244). -/
def is_straight (cards : List Card) : List Card :=
  is_straight_go [] cards

/-- is_flush (src/src/poker/hands.rs, lines 269-283): cards of the
dominant suit, or wild-enhanced; None (panic) on an empty slice through
compute_most_appear_suit. -/
def is_flush (cards : List Card) : Option (List Card) :=
  match compute_most_appear_suit cards with
  | none => none
  | some base_suit =>
    some (cards.filter (fun card =>
      if card.suit = base_suit then true
      else if card.enhancement = some Enhancement.Wild then true
      else false))

/-- is_full_house (src/src/poker/hands.rs, lines 321-351): loop over
adjacent windows; the ptr::eq checks are positional (final window). -/
def is_full_house_go (prev : ℚ) (acc : List Card) : List Card → List Card
  | curr :: next :: rest =>
    let co := compute_card_order curr
    let no := compute_card_order next
    if prev ≠ 0 ∧ co = no ∧ co ≠ prev then
      let acc1 := acc ++ [curr]
      let acc2 := if rest.isEmpty then acc1 ++ [next] else acc1
      is_full_house_go prev acc2 (next :: rest)
    else if co = no then
      let acc1 := acc ++ [curr]
      let acc2 := if rest.isEmpty then acc1 ++ [next] else acc1
      is_full_house_go co acc2 (next :: rest)
    else if co = prev then is_full_house_go prev (acc ++ [curr]) (next :: rest)
    else is_full_house_go prev acc (next :: rest)
  | _ => acc

/-- is_full_house (src/src/poker/hands.rs, lines 321-351). -/
def is_full_house (cards : List Card) : List Card :=
  is_full_house_go 0 [] cards

/-- is_four_of_a_kind (src/src/poker/hands.rs, lines 386-412). -/
def is_four_go (prev : ℚ) (acc : List Card) : List Card → List Card
  | curr :: next :: rest =>
    let co := compute_card_order curr
    let no := compute_card_order next
    if prev = 0 ∧ co = no then
      is_four_go co (acc ++ [curr]) (next :: rest)
    else if co = no ∧ co = prev then
      let acc1 := acc ++ [curr]
      let acc2 := if rest.isEmpty then acc1 ++ [next] else acc1
      is_four_go prev acc2 (next :: rest)
    else if co ≠ no ∧ co = prev then is_four_go prev (acc ++ [curr]) (next :: rest)
    else is_four_go prev acc (next :: rest)
  | _ => acc

/-- is_four_of_a_kind (src/src/poker/hands.rs, lines 386-412). -/
def is_four_of_a_kind (cards : List Card) : List Card :=
  is_four_go 0 [] cards

/-- is_straight_flush (src/src/poker/hands.rs, lines 449-469): the
four-finger union branch collects flush ++ straight into a HashSet in
unspecified order; the embedding keeps first occurrences in order
(List.dedup), the same element set. -/
def is_straight_flush (cards : List Card) (is_four_finger_exists : Bool) :
    Option (List Card) :=
  match is_flush cards with
  | none => none
  | some fl =>
    if fl.length = 5 ∧ (is_straight cards).length = 5 then
      some cards
    else if is_four_finger_exists ∧
        ((fl.length = 4 ∧ (is_straight cards).length = 4) ∨
          (fl.length = 5 ∧ (is_straight cards).length = 4) ∨
          (fl.length = 4 ∧ (is_straight cards).length = 5)) then
      some (fl ++ is_straight cards).dedup
    else
      some []

/-- is_five_of_a_kind (src/src/poker/hands.rs, lines 504-519). -/
def is_five_go (acc : List Card) : List Card → List Card
  | curr :: next :: rest =>
    if compute_card_order curr = compute_card_order next then
      let acc1 := acc ++ [curr]
      let acc2 := if rest.isEmpty then acc1 ++ [next] else acc1
      is_five_go acc2 (next :: rest)
    else is_five_go acc (next :: rest)
  | _ => acc

/-- is_five_of_a_kind (src/src/poker/hands.rs, lines 504-519). -/
def is_five_of_a_kind (cards : List Card) : List Card :=
  is_five_go [] cards

/-- is_flush_house (src/src/poker/hands.rs, lines 556-605): loop body,
mirroring the source's if/else-if chains verbatim (including the wild
else-branches that fire outside the rank checks). -/
def is_flush_house_go (base_suit : Suit) (prev : ℚ) (acc : List Card) :
    List Card → List Card
  | curr :: next :: rest =>
    let co := compute_card_order curr
    let no := compute_card_order next
    if prev ≠ 0 ∧ co = no ∧ co ≠ prev then
      let acc1 :=
        if curr.suit = base_suit then acc ++ [curr]
        else if curr.enhancement = some Enhancement.Wild then acc ++ [curr]
        else acc
      let acc2 :=
        if rest.isEmpty ∧ next.suit = base_suit then acc1 ++ [next]
        else if next.enhancement = some Enhancement.Wild then acc1 ++ [next]
        else acc1
      is_flush_house_go base_suit prev acc2 (next :: rest)
    else if co = no then
      let acc1 :=
        if curr.suit = base_suit then acc ++ [curr]
        else if curr.enhancement = some Enhancement.Wild then acc ++ [curr]
        else acc
      is_flush_house_go base_suit co acc1 (next :: rest)
    else if co = prev ∧ curr.suit = base_suit then
      is_flush_house_go base_suit prev (acc ++ [curr]) (next :: rest)
    else if curr.enhancement = some Enhancement.Wild then
      is_flush_house_go base_suit prev (acc ++ [curr]) (next :: rest)
    else is_flush_house_go base_suit prev acc (next :: rest)
  | _ => acc

/-- is_flush_house (src/src/poker/hands.rs, lines 556-605). -/
def is_flush_house (cards : List Card) : Option (List Card) :=
  match compute_most_appear_suit cards with
  | none => none
  | some base_suit => some (is_flush_house_go base_suit 0 [] cards)

/-- is_flush_five (src/src/poker/hands.rs, lines 640-657): loop body;
the base suit is the first card's suit (unwrap panics on empty). -/
def is_flush_five_go (base_suit : Suit) (acc : List Card) : List Card → List Card
  | curr :: next :: rest =>
    if compute_card_order curr = compute_card_order next ∧ curr.suit = base_suit then
      let acc1 := acc ++ [curr]
      let acc2 := if rest.isEmpty then acc1 ++ [next] else acc1
      is_flush_five_go base_suit acc2 (next :: rest)
    else is_flush_five_go base_suit acc (next :: rest)
  | _ => acc

/-- is_flush_five (src/src/poker/hands.rs, lines 640-657). -/
def is_flush_five (cards : List Card) : Option (List Card) :=
  match cards.head? with
  | none => none
  | some first => some (is_flush_five_go first.suit [] cards)

/-- determine_poker_hand (src/src/poker/hands.rs, lines 794-795): the
HighCard fallback at the end of the early-return chain. -/
def check_high_card (cards sorted : List Card) (is_four_finger_exists : Bool) :
    Option (PokerHand × List Card) :=
  match is_high_card sorted with
  | none => none
  | some hc => some (PokerHand.HighCard, hc)

/-- determine_poker_hand (src/src/poker/hands.rs, lines 788-792): the
Pair check and the rest of the chain. -/
def check_pair (cards sorted : List Card) (is_four_finger_exists : Bool) :
    Option (PokerHand × List Card) :=
  if (is_pair sorted).length = 2 then some (PokerHand.Pair, is_pair sorted)
  else check_high_card cards sorted is_four_finger_exists

/-- determine_poker_hand (src/src/poker/hands.rs, lines 782-786): the
TwoPair check and the rest of the chain. -/
def check_two_pair (cards sorted : List Card) (is_four_finger_exists : Bool) :
    Option (PokerHand × List Card) :=
  if (is_two_pair sorted).length = 4 then some (PokerHand.TwoPair, is_two_pair sorted)
  else check_pair cards sorted is_four_finger_exists

/-- determine_poker_hand (src/src/poker/hands.rs, lines 776-780): the
ThreeOfAKind check and the rest of the chain. -/
def check_three_of_a_kind (cards sorted : List Card) (is_four_finger_exists : Bool) :
    Option (PokerHand × List Card) :=
  if (is_three_of_a_kind sorted).length = 3 then
    some (PokerHand.ThreeOfAKind, is_three_of_a_kind sorted)
  else check_two_pair cards sorted is_four_finger_exists

/-- determine_poker_hand (src/src/poker/hands.rs, lines 768-774): the
Straight check and the rest of the chain. -/
def check_straight (cards sorted : List Card) (is_four_finger_exists : Bool) :
    Option (PokerHand × List Card) :=
  if (is_straight sorted).length = 5 then some (PokerHand.Straight, cards)
  else if (is_straight sorted).length = 4 ∧ is_four_finger_exists then
    some (PokerHand.Straight, is_straight sorted)
  else check_three_of_a_kind cards sorted is_four_finger_exists

/-- determine_poker_hand (src/src/poker/hands.rs, lines 762-766): the
Flush check and the rest of the chain. -/
def check_flush (cards sorted : List Card) (is_four_finger_exists : Bool) :
    Option (PokerHand × List Card) :=
  match is_flush sorted with
  | none => none
  | some r7 =>
    if r7.length = 5 ∨ (r7.length = 4 ∧ is_four_finger_exists) then
      some (PokerHand.Flush, cards)
    else check_straight cards sorted is_four_finger_exists

/-- determine_poker_hand (src/src/poker/hands.rs, lines 756-760): the
FullHouse check and the rest of the chain. -/
def check_full_house (cards sorted : List Card) (is_four_finger_exists : Bool) :
    Option (PokerHand × List Card) :=
  if (is_full_house sorted).length = 5 then some (PokerHand.FullHouse, cards)
  else check_flush cards sorted is_four_finger_exists

/-- determine_poker_hand (src/src/poker/hands.rs, lines 750-754): the
FourOfAKind check and the rest of the chain. -/
def check_four_of_a_kind (cards sorted : List Card) (is_four_finger_exists : Bool) :
    Option (PokerHand × List Card) :=
  if (is_four_of_a_kind sorted).length = 4 then
    some (PokerHand.FourOfAKind, is_four_of_a_kind sorted)
  else check_full_house cards sorted is_four_finger_exists

/-- determine_poker_hand (src/src/poker/hands.rs, lines 741-748): the
StraightFlush check and the rest of the chain. -/
def check_straight_flush (cards sorted : List Card) (is_four_finger_exists : Bool) :
    Option (PokerHand × List Card) :=
  match is_straight_flush sorted is_four_finger_exists with
  | none => none
  | some r4 =>
    if r4.length = 5 then some (PokerHand.StraightFlush, cards)
    else if r4.length = 4 ∧ is_four_finger_exists then
      some (PokerHand.StraightFlush, r4)
    else check_four_of_a_kind cards sorted is_four_finger_exists

/-- determine_poker_hand (src/src/poker/hands.rs, lines 735-739): the
FiveOfAKind check and the rest of the chain. -/
def check_five_of_a_kind (cards sorted : List Card) (is_four_finger_exists : Bool) :
    Option (PokerHand × List Card) :=
  if (is_five_of_a_kind sorted).length = 5 then some (PokerHand.FiveOfAKind, cards)
  else check_straight_flush cards sorted is_four_finger_exists

/-- determine_poker_hand (src/src/poker/hands.rs, lines 729-733): the
FlushHouse check and the rest of the chain. -/
def check_flush_house (cards sorted : List Card) (is_four_finger_exists : Bool) :
    Option (PokerHand × List Card) :=
  match is_flush_house sorted with
  | none => none
  | some r2 =>
    if r2.length = 5 then some (PokerHand.FlushHouse, cards)
    else check_five_of_a_kind cards sorted is_four_finger_exists

/-- determine_poker_hand (src/src/poker/hands.rs, lines 714-796) after
the four-finger flag has been read from the jokers (line 721): the
FlushFive check at the top of the early-return chain, the rest cascades
through the check functions above. -/
def determine_hand_sorted (cards sorted : List Card) (is_four_finger_exists : Bool) :
    Option (PokerHand × List Card) :=
  match is_flush_five sorted with
  | none => none
  | some r1 =>
    if r1.length = 5 ∨ (r1.length = 4 ∧ is_four_finger_exists) then
      some (PokerHand.FlushFive, cards)
    else check_flush_house cards sorted is_four_finger_exists

/-- determine_poker_hand (src/src/poker/hands.rs, lines 714-796) after
the four-finger flag has been read (line 721): the played cards are
sorted once and the detectors are tried strongest first. -/
def determine_hand_core (cards : List Card) (is_four_finger_exists : Bool) :
    Option (PokerHand × List Card) :=
  determine_hand_sorted cards (sort_cards cards) is_four_finger_exists

/-- determine_poker_hand (src/src/poker/hands.rs, lines 714-796): reads
the joker slice only through the FourFingers presence flag. -/
def determine_poker_hand (cards : List Card) (jokers : List JokerCard) :
    Option (PokerHand × List Card) :=
  determine_hand_core cards (jokers.any (fun card => card.joker = Joker.FourFingers))

/-- apply_enhancement (src/src/poker/modifiers.rs, lines 37-58). -/
def apply_enhancement (enhancement : Enhancement) (input_chip input_mul : ℚ)
    (in_hand : Bool) : ℚ × ℚ :=
  if !in_hand then
    match enhancement with
    | .Bonus => (input_chip + 30, input_mul)
    | .Mult => (input_chip, input_mul + 4)
    | .Wild => (input_chip, input_mul)
    | .Glass => (input_chip, input_mul * 2)
    | .Steel => (input_chip, input_mul)
  else if enhancement = Enhancement.Steel then (input_chip, input_mul * 1.5)
  else (input_chip, input_mul)

/-- apply_edition (src/src/poker/modifiers.rs, lines 82-98). -/
def apply_edition (edition : Edition) (input_chip input_mul : ℚ)
    (in_hand : Bool) : ℚ × ℚ :=
  if !in_hand then
    match edition with
    | .Foil => (input_chip + 50, input_mul)
    | .Holographic => (input_chip, input_mul + 10)
    | .Polychrome => (input_chip, input_mul * 1.5)
  else (input_chip, input_mul)

/-- compute_enhancement (src/src/poker/modifiers.rs, lines 126-144):
for each card in order, the enhancement effect then the edition effect. -/
def compute_enhancement : List Card → ℚ → ℚ → Bool → ℚ × ℚ
  | [], chip, mul, _ => (chip, mul)
  | card :: rest, chip, mul, in_hand =>
    let r1 := match card.enhancement with
      | some e => apply_enhancement e chip mul in_hand
      | none => (chip, mul)
    let r2 := match card.edition with
      | some e => apply_edition e r1.1 r1.2 in_hand
      | none => r1
    compute_enhancement rest r2.1 r2.2 in_hand

/-- apply_easy_jokers (src/src/poker/jokers.rs, lines 61-65): the base
Joker block. -/
def easy_base (joker : Joker) (res : ℚ × ℚ) : ℚ × ℚ :=
  if joker = Joker.Joker then (res.1, res.2 + 4) else res

/-- apply_easy_jokers (src/src/poker/jokers.rs, lines 67-85): the Jolly
and Sly block. -/
def easy_jolly_sly (joker : Joker) (hand : PokerHand) (res : ℚ × ℚ) : ℚ × ℚ :=
  if hand ∈ ([.Pair, .TwoPair, .FullHouse, .ThreeOfAKind, .FourOfAKind,
      .FiveOfAKind, .FlushHouse, .FlushFive] : List PokerHand) then
    if joker = Joker.JollyJoker then (res.1, res.2 + 8)
    else if joker = Joker.SlyJoker then (res.1 + 50, res.2)
    else res
  else res

/-- apply_easy_jokers (src/src/poker/jokers.rs, lines 87-103): the Zany
and Wily block. -/
def easy_zany_wily (joker : Joker) (hand : PokerHand) (res : ℚ × ℚ) : ℚ × ℚ :=
  if hand ∈ ([.ThreeOfAKind, .FullHouse, .FlushHouse, .FourOfAKind,
      .FiveOfAKind, .FlushFive] : List PokerHand) then
    if joker = Joker.ZanyJoker then (res.1, res.2 + 12)
    else if joker = Joker.WilyJoker then (res.1 + 100, res.2)
    else res
  else res

/-- apply_easy_jokers (src/src/poker/jokers.rs, lines 105-117): the Mad
and Clever block. -/
def easy_mad_clever (joker : Joker) (hand : PokerHand) (res : ℚ × ℚ) : ℚ × ℚ :=
  if hand ∈ ([.TwoPair, .FullHouse, .FlushHouse] : List PokerHand) then
    if joker = Joker.MadJoker then (res.1, res.2 + 10)
    else if joker = Joker.CleverJoker then (res.1 + 80, res.2)
    else res
  else res

/-- apply_easy_jokers (src/src/poker/jokers.rs, lines 119-127): the
Crazy and Devious block. -/
def easy_crazy_devious (joker : Joker) (hand : PokerHand) (res : ℚ × ℚ) : ℚ × ℚ :=
  if hand ∈ ([.Straight, .StraightFlush] : List PokerHand) then
    if joker = Joker.CrazyJoker then (res.1, res.2 + 12)
    else if joker = Joker.DeviousJoker then (res.1 + 100, res.2)
    else res
  else res

/-- apply_easy_jokers (src/src/poker/jokers.rs, lines 129-142): the
Droll and Crafty block. -/
def easy_droll_crafty (joker : Joker) (hand : PokerHand) (res : ℚ × ℚ) : ℚ × ℚ :=
  if hand ∈ ([.Flush, .FlushFive, .FlushHouse, .FourOfAKind] : List PokerHand) then
    if joker = Joker.DrollJoker then (res.1, res.2 + 10)
    else if joker = Joker.CraftyJoker then (res.1 + 80, res.2)
    else res
  else res

/-- apply_easy_jokers (src/src/poker/jokers.rs, lines 144-148): the
Abstract block, reading the total joker count. -/
def easy_abstract (joker : Joker) (joker_cards_len : ℕ) (res : ℚ × ℚ) : ℚ × ℚ :=
  if joker = Joker.AbstractJoker then (res.1, res.2 + 3 * (joker_cards_len : ℚ))
  else res

/-- apply_easy_jokers (src/src/poker/jokers.rs, lines 52-151): the
sequence of independent if-blocks over a single (chips, mult) record. -/
def apply_easy_jokers (joker : Joker) (hand : PokerHand) (joker_cards_len : ℕ)
    (chip mul : ℚ) : ℚ × ℚ :=
  easy_abstract joker joker_cards_len
    (easy_droll_crafty joker hand
      (easy_crazy_devious joker hand
        (easy_mad_clever joker hand
          (easy_zany_wily joker hand
            (easy_jolly_sly joker hand
              (easy_base joker (chip, mul)))))))

/-- apply_medium_jokers (src/src/poker/jokers.rs, lines 216-227),
RaisedFist: min_by_key keeps the first minimum (strict comparison),
the filter then next_back picks the last card of that minimal rank
value; both unwraps panic (None) when the held hand is empty. -/
def min_by_rank : List Card → Option Card
  | [] => none
  | c :: rest =>
    some (rest.foldl (fun best x =>
      if x.rank.rank_value < best.rank.rank_value then x else best) c)

/-- apply_medium_jokers (src/src/poker/jokers.rs, lines 216-227): the
mult bonus added by RaisedFist, None on an empty held hand. -/
def raised_fist_bonus (on_held : List Card) : Option ℚ :=
  match min_by_rank on_held with
  | none => none
  | some lowest =>
    match (on_held.filter
        (fun card => card.rank.rank_value = lowest.rank.rank_value)).getLast? with
    | none => none
    | some last => some (last.rank.rank_value * 2)

/-- apply_medium_jokers (src/src/poker/jokers.rs, lines 216-227): the
RaisedFist block. -/
def medium_raised_fist (joker : Joker) (on_held : List Card) (res : ℚ × ℚ) :
    Option (ℚ × ℚ) :=
  if joker = Joker.RaisedFist then
    match raised_fist_bonus on_held with
    | none => none
    | some b => some (res.1, res.2 + b)
  else some res

/-- apply_medium_jokers (src/src/poker/jokers.rs, lines 229-244): the
Blackboard block (all on an empty iterator is true, so the or with
is_empty is redundant but mirrored). -/
def medium_blackboard (joker : Joker) (on_held : List Card) (res : ℚ × ℚ) : ℚ × ℚ :=
  if joker = Joker.Blackboard then
    let check := on_held.all (fun c =>
      if c.enhancement = some Enhancement.Wild then true
      else decide (c.suit ∈ ([Suit.Spades, Suit.Clubs] : List Suit)))
    if check || on_held.isEmpty then (res.1, res.2 * 3) else res
  else res

/-- apply_medium_jokers (src/src/poker/jokers.rs, lines 246-254): the
Baron block. -/
def medium_baron (joker : Joker) (on_held : List Card) (res : ℚ × ℚ) : ℚ × ℚ :=
  if joker = Joker.Baron then
    (res.1, on_held.foldl (fun m card =>
      if card.rank = Rank.King then m * 1.5 else m) res.2)
  else res

/-- apply_medium_jokers (src/src/poker/jokers.rs, lines 256-306): the
shared shape of the four suit jokers. -/
def medium_suit_fold (main other : Suit) (smeared : Bool)
    (on_scored : List Card) (m : ℚ) : ℚ :=
  on_scored.foldl (fun m card =>
    if card.suit = main ∨ (card.suit = other ∧ smeared) then m + 3
    else if card.enhancement = some Enhancement.Wild then m + 3
    else m) m

/-- apply_medium_jokers (src/src/poker/jokers.rs, lines 256-306): the
Greedy, Lusty, Wrathful, Gluttonous blocks. -/
def medium_suit_jokers (joker : Joker) (on_scored : List Card) (smeared : Bool)
    (res : ℚ × ℚ) : ℚ × ℚ :=
  if joker = Joker.GreedyJoker then
    (res.1, medium_suit_fold Suit.Diamonds Suit.Hearts smeared on_scored res.2)
  else if joker = Joker.LustyJoker then
    (res.1, medium_suit_fold Suit.Hearts Suit.Diamonds smeared on_scored res.2)
  else if joker = Joker.WrathfulJoker then
    (res.1, medium_suit_fold Suit.Spades Suit.Clubs smeared on_scored res.2)
  else if joker = Joker.GluttonousJoker then
    (res.1, medium_suit_fold Suit.Clubs Suit.Spades smeared on_scored res.2)
  else res

/-- apply_medium_jokers (src/src/poker/jokers.rs, lines 308-320): the
Fibonacci block. -/
def medium_fibonacci (joker : Joker) (on_scored : List Card) (res : ℚ × ℚ) : ℚ × ℚ :=
  if joker = Joker.Fibonacci then
    (res.1, on_scored.foldl (fun m card =>
      if card.rank = Rank.Ace ∨ card.rank = Rank.Two ∨ card.rank = Rank.Three ∨
          card.rank = Rank.Five ∨ card.rank = Rank.Eight then m + 8
      else m) res.2)
  else res

/-- apply_medium_jokers (src/src/poker/jokers.rs, lines 322-329): the
ScaryFace block (chips). -/
def medium_scary_face (joker : Joker) (on_scored : List Card) (pareidolia : Bool)
    (res : ℚ × ℚ) : ℚ × ℚ :=
  if joker = Joker.ScaryFace then
    (on_scored.foldl (fun c card =>
      if card.rank.is_face ∨ pareidolia then c + 30 else c) res.1, res.2)
  else res

/-- apply_medium_jokers (src/src/poker/jokers.rs, lines 331-339): the
EvenSteven block; the f64 test value % 2.0 == 0.0 on the integer-valued
card orders is evenness of the numerator. -/
def medium_even_steven (joker : Joker) (on_scored : List Card) (res : ℚ × ℚ) : ℚ × ℚ :=
  if joker = Joker.EvenSteven then
    (res.1, on_scored.foldl (fun m card =>
      let v := compute_card_order card
      if v ≤ 10 ∧ v.num % 2 = 0 then m + 4 else m) res.2)
  else res

/-- apply_medium_jokers (src/src/poker/jokers.rs, lines 341-349): the
OddTodd block (chips). -/
def medium_odd_todd (joker : Joker) (on_scored : List Card) (res : ℚ × ℚ) : ℚ × ℚ :=
  if joker = Joker.OddTodd then
    (on_scored.foldl (fun c card =>
      let v := compute_card_order card
      if v = 14 ∨ (v < 10 ∧ v.num % 2 ≠ 0) then c + 31 else c) res.1, res.2)
  else res

/-- apply_medium_jokers (src/src/poker/jokers.rs, lines 351-362): the
Photograph loop with its first-match flag. -/
def photograph_fold (pareidolia : Bool) : List Card → ℚ → Bool → ℚ
  | [], m, _ => m
  | card :: rest, m, found =>
    if (card.rank.is_face ∨ pareidolia) ∧ !found then
      photograph_fold pareidolia rest (m * 2) true
    else photograph_fold pareidolia rest m found

/-- apply_medium_jokers (src/src/poker/jokers.rs, lines 351-362): the
Photograph block. -/
def medium_photograph (joker : Joker) (on_scored : List Card) (pareidolia : Bool)
    (res : ℚ × ℚ) : ℚ × ℚ :=
  if joker = Joker.Photograph then
    (res.1, photograph_fold pareidolia on_scored res.2 false)
  else res

/-- apply_medium_jokers (src/src/poker/jokers.rs, lines 364-371): the
SmileyFace block. -/
def medium_smiley (joker : Joker) (on_scored : List Card) (pareidolia : Bool)
    (res : ℚ × ℚ) : ℚ × ℚ :=
  if joker = Joker.SmileyFace then
    (res.1, on_scored.foldl (fun m card =>
      if card.rank.is_face ∨ pareidolia then m + 5 else m) res.2)
  else res

/-- apply_medium_jokers (src/src/poker/jokers.rs, lines 373-387): the
FlowerPot block. -/
def medium_flower_pot (joker : Joker) (on_scored : List Card) (smeared : Bool)
    (res : ℚ × ℚ) : ℚ × ℚ :=
  if joker = Joker.FlowerPot ∧ 4 ≤ on_scored.length then
    let having_diamonds := determine_current_suit on_scored Suit.Diamonds
    let having_hearts := determine_current_suit on_scored Suit.Hearts
    let having_spades := determine_current_suit on_scored Suit.Spades
    let having_clubs := determine_current_suit on_scored Suit.Clubs
    let having_red := determine_total_colors on_scored SuitColor.Red
    let having_black := determine_total_colors on_scored SuitColor.Black
    if (having_diamonds ∧ having_hearts ∧ having_spades ∧ having_clubs) ∨
        (smeared ∧ having_red ∧ having_black) then (res.1, res.2 * 3)
    else res
  else res

/-- apply_medium_jokers (src/src/poker/jokers.rs, lines 229-390): the
total tail of the block sequence after the RaisedFist block. -/
def medium_rest (joker : Joker) (on_held on_scored : List Card)
    (is_pareidolia_exists is_smeared_exists : Bool) (res : ℚ × ℚ) : ℚ × ℚ :=
  medium_flower_pot joker on_scored is_smeared_exists
    (medium_smiley joker on_scored is_pareidolia_exists
      (medium_photograph joker on_scored is_pareidolia_exists
        (medium_odd_todd joker on_scored
          (medium_even_steven joker on_scored
            (medium_scary_face joker on_scored is_pareidolia_exists
              (medium_fibonacci joker on_scored
                (medium_suit_jokers joker on_scored is_smeared_exists
                  (medium_baron joker on_held
                    (medium_blackboard joker on_held res)))))))))

/-- apply_medium_jokers (src/src/poker/jokers.rs, lines 204-390): the
sequence of independent if-blocks; only the RaisedFist block can panic
(None). -/
def apply_medium_jokers (joker : Joker) (on_held on_scored : List Card)
    (chip mul : ℚ) (is_pareidolia_exists is_smeared_exists : Bool) :
    Option (ℚ × ℚ) :=
  match medium_raised_fist joker on_held (chip, mul) with
  | none => none
  | some res =>
    some (medium_rest joker on_held on_scored is_pareidolia_exists
      is_smeared_exists res)

/-- joker_application (src/src/poker/jokers.rs, lines 446-461). -/
def independent_jokers : List Joker :=
  [.Joker, .JollyJoker, .ZanyJoker, .MadJoker, .CrazyJoker, .DrollJoker,
   .SlyJoker, .WilyJoker, .CleverJoker, .DeviousJoker, .CraftyJoker,
   .AbstractJoker, .Blackboard, .FlowerPot]

/-- joker_application (src/src/poker/jokers.rs, lines 462-474). -/
def on_scored_jokers : List Joker :=
  [.GreedyJoker, .LustyJoker, .WrathfulJoker, .GluttonousJoker, .Fibonacci,
   .ScaryFace, .EvenSteven, .OddTodd, .Photograph, .SmileyFace, .SockAndBuskin]

/-- joker_application (src/src/poker/jokers.rs, line 475). -/
def on_held_jokers : List Joker := [.RaisedFist, .Baron, .Mime]

/-- joker_application (src/src/poker/jokers.rs): one sequential pass
threading the (chips, mult) record through a per-joker step. -/
def joker_pass (step : ℚ × ℚ → JokerCard → Option (ℚ × ℚ)) :
    List JokerCard → ℚ × ℚ → Option (ℚ × ℚ)
  | [], res => some res
  | jc :: rest, res =>
    match step res jc with
    | none => none
    | some next => joker_pass step rest next

/-- joker_application (src/src/poker/jokers.rs, lines 483-496): the step
of the scored-context and held-context passes. -/
def medium_step (on_held_cards on_scored_cards : List Card)
    (is_pareidolia_exists is_smeared_exists : Bool) (res : ℚ × ℚ)
    (jc : JokerCard) : Option (ℚ × ℚ) :=
  apply_medium_jokers jc.joker on_held_cards on_scored_cards
    res.1 res.2 is_pareidolia_exists is_smeared_exists

/-- joker_application (src/src/poker/jokers.rs, lines 513-533): the step
of the independent pass, the easy rules then the medium rules. -/
def independent_step (on_held_cards on_scored_cards : List Card)
    (hand : PokerHand) (joker_cards_len : ℕ)
    (is_pareidolia_exists is_smeared_exists : Bool) (res : ℚ × ℚ)
    (jc : JokerCard) : Option (ℚ × ℚ) :=
  apply_medium_jokers jc.joker on_held_cards on_scored_cards
    (apply_easy_jokers jc.joker hand joker_cards_len res.1 res.2).1
    (apply_easy_jokers jc.joker hand joker_cards_len res.1 res.2).2
    is_pareidolia_exists is_smeared_exists

/-- joker_application (src/src/poker/jokers.rs, lines 536-542): the
final pass applying each joker card's own edition. -/
def edition_pass (joker_cards : List JokerCard) (res : ℚ × ℚ) : ℚ × ℚ :=
  joker_cards.foldl (fun res card =>
    match card.edition with
    | some e => apply_edition e res.1 res.2 false
    | none => res) res

/-- joker_application (src/src/poker/jokers.rs, lines 437-545): the
scored-context pass, the held-context pass, the independent pass (easy
rules then medium rules per joker), then the joker-card edition pass. -/
def joker_application (joker_cards : List JokerCard)
    (on_held_cards on_scored_cards : List Card) (hand : PokerHand)
    (chip mul : ℚ) : Option (ℚ × ℚ) :=
  (joker_pass
      (medium_step on_held_cards on_scored_cards
        (joker_cards.any (fun card => card.joker = Joker.Pareidolia))
        (joker_cards.any (fun card => card.joker = Joker.SmearedJoker)))
      (joker_cards.filter (fun card => decide (card.joker ∈ on_scored_jokers)))
      (chip, mul)).bind fun r1 =>
    (joker_pass
        (medium_step on_held_cards on_scored_cards
          (joker_cards.any (fun card => card.joker = Joker.Pareidolia))
          (joker_cards.any (fun card => card.joker = Joker.SmearedJoker)))
        (joker_cards.filter (fun card => decide (card.joker ∈ on_held_jokers)))
        r1).bind fun r2 =>
      (joker_pass
          (independent_step on_held_cards on_scored_cards hand
            joker_cards.length
            (joker_cards.any (fun card => card.joker = Joker.Pareidolia))
            (joker_cards.any (fun card => card.joker = Joker.SmearedJoker)))
          (joker_cards.filter (fun card => decide (card.joker ∈ independent_jokers)))
          r2).map fun r3 => edition_pass joker_cards r3

/-- score (src/src/poker/scoring.rs, lines 49-54): the working scored
set, the whole played hand when a Splash joker is present, otherwise
the subset the classifier returned. -/
def score_working_set (round : Round) (return_card : List Card) : List Card :=
  if round.jokers.any (fun card => card.joker = Joker.Splash) then
    round.cards_played
  else return_card

/-- score (src/src/poker/scoring.rs, lines 56-58): the base chips plus
the rank values of the working scored set. -/
def score_base_chips (hand : PokerHand) (on_scored_cards : List Card) : ℚ :=
  on_scored_cards.foldl (fun acc x => acc + x.rank.rank_value) (hand_value hand).1

/-- score (src/src/poker/scoring.rs, lines 44-71) after classification:
base value lookup, the Splash working-set choice, rank-value chip
accumulation, the two modifier passes and the joker engine. -/
def score_pipeline (round : Round) (hand : PokerHand) (return_card : List Card) :
    Option (ℚ × ℚ) :=
  let on_scored_cards := score_working_set round return_card
  let chips := score_base_chips hand on_scored_cards
  let r1 := compute_enhancement on_scored_cards chips (hand_value hand).2 false
  let r2 := compute_enhancement round.cards_held_in_hand r1.1 r1.2 true
  joker_application round.jokers round.cards_held_in_hand on_scored_cards hand
    r2.1 r2.2

/-- score (src/src/poker/scoring.rs, lines 44-71). -/
def score (round : Round) : Option (ℚ × ℚ) :=
  match determine_poker_hand round.cards_played round.jokers with
  | none => none
  | some (hand, return_card) => score_pipeline round hand return_card

/-- A card with no enhancement and no edition. -/
def plain (r : Rank) (s : Suit) : Card := ⟨r, s, none, none⟩

/-- A joker card with no edition. -/
def plain_joker (j : Joker) : JokerCard := ⟨j, none⟩

/-- The Pair scenario of the spec: King of Hearts, King of Spades, Three
of Clubs, Seven of Diamonds, Nine of Hearts, nothing held, no jokers. -/
def pair_round : Round :=
  ⟨[plain .King .Hearts, plain .King .Spades, plain .Three .Clubs,
    plain .Seven .Diamonds, plain .Nine .Hearts], [], []⟩

/-- A played hand holding a four-card straight (Five to Eight) whose two
lowest straight cards carry a Glass and a Mult enhancement, plus an
unrelated Two; the odd card is lowest in sorted order. -/
def mixed_mod_straight_cards : List Card :=
  [⟨.Five, .Hearts, some .Glass, none⟩, ⟨.Six, .Spades, some .Mult, none⟩,
   plain .Seven .Clubs, plain .Eight .Diamonds, plain .Two .Hearts]

/-- The round playing mixed_mod_straight_cards with a FourFingers joker. -/
def mixed_mod_straight_round : Round :=
  ⟨mixed_mod_straight_cards, [], [plain_joker .FourFingers]⟩

/-- The four straight cards of mixed_mod_straight_cards in the insertion
order of the is_straight accumulator. -/
def straight_subset_a : List Card :=
  [⟨.Five, .Hearts, some .Glass, none⟩, ⟨.Six, .Spades, some .Mult, none⟩,
   plain .Seven .Clubs, plain .Eight .Diamonds]

/-- The same four straight cards with the Glass and Mult carriers
swapped: another enumeration order of the same HashMap key set. -/
def straight_subset_b : List Card :=
  [⟨.Six, .Spades, some .Mult, none⟩, ⟨.Five, .Hearts, some .Glass, none⟩,
   plain .Seven .Clubs, plain .Eight .Diamonds]

/-- A round whose joker list contains RaisedFist while the held hand is
empty. -/
def raised_fist_empty_round : Round :=
  ⟨[plain .Two .Hearts], [], [plain_joker .RaisedFist]⟩

/-- A round with RaisedFist and a non-empty held hand. -/
def raised_fist_held_round : Round :=
  ⟨[plain .Two .Hearts], [plain .King .Spades], [plain_joker .RaisedFist]⟩

/-- A five-card played hand containing exactly four cards of the
dominant suit (Hearts) and no wild enhancements. -/
def four_heart_cards : List Card :=
  [plain .Two .Hearts, plain .Five .Hearts, plain .Seven .Hearts,
   plain .Nine .Hearts, plain .King .Spades]

/-- Four consecutive ranks (Five to Eight) with the odd card (Two)
lowest in sorted order; suits mixed so no flush interferes. -/
def run_at_top_cards : List Card :=
  [plain .Two .Hearts, plain .Five .Spades, plain .Six .Clubs,
   plain .Seven .Diamonds, plain .Eight .Hearts]

/-- Four consecutive ranks (Three to Six) with the odd card (Ace)
highest in sorted order; suits mixed so no flush interferes. -/
def ace_after_run_cards : List Card :=
  [plain .Three .Diamonds, plain .Four .Clubs, plain .Five .Hearts,
   plain .Six .Spades, plain .Ace .Hearts]

/-- A five-card heart run: simultaneously a five-card flush and a
five-card straight. -/
def heart_run_cards : List Card :=
  [plain .Five .Hearts, plain .Six .Hearts, plain .Seven .Hearts,
   plain .Eight .Hearts, plain .Nine .Hearts]

/-- A one-card round carrying a single AbstractJoker. -/
def abstract_round : Round :=
  ⟨[plain .Two .Hearts], [], [plain_joker .AbstractJoker]⟩

unseal Rat.add Rat.sub Rat.mul Rat.ofScientific

/-- Claim C7: the round playing King of Hearts, King of Spades, Three of
Clubs, Seven of Diamonds, Nine of Hearts with no held cards, no
modifiers and no jokers classifies as Pair and scores chips 36
(base 10 plus 13 plus 13) and mult 2. -/
theorem C7_pair_scenario :
    determine_poker_hand pair_round.cards_played pair_round.jokers =
      some (PokerHand.Pair, [plain .King .Hearts, plain .King .Spades]) ∧
    score pair_round = some (36, 2) := by
  constructor <;> decide

/-- Claim C10: determine_poker_hand reads the joker sequence only
through the presence of the FourFingers variant: two joker sequences
agreeing on that flag classify every non-empty played hand identically
(combination and scored subset). -/
theorem C10_classification_reads_only_four_fingers
    (cards : List Card) (jokers1 jokers2 : List JokerCard)
    (hne : cards ≠ [])
    (hflag : jokers1.any (fun card => card.joker = Joker.FourFingers) =
      jokers2.any (fun card => card.joker = Joker.FourFingers)) :
    determine_poker_hand cards jokers1 = determine_poker_hand cards jokers2 := by
  unfold determine_poker_hand
  rw [hflag]

/-- Claim C10 witness: concrete jokerless sequence versus a sequence
holding one plain Joker, on a one-card hand. -/
theorem C10_witness :
    determine_poker_hand [plain .Two .Hearts] [] =
      determine_poker_hand [plain .Two .Hearts] [plain_joker .Joker] :=
  C10_classification_reads_only_four_fingers [plain .Two .Hearts] []
    [plain_joker .Joker] (by decide) (by decide)

/-- Claim C1 (refuted, code bug): the scored subset of a FourFingers
four-card straight is the key set of a Rust HashMap, collected in
unspecified iteration order; two enumeration orders of the same key set
(straight_subset_a and straight_subset_b are permutations of each
other) drive the scoring pipeline to different mult values (12 versus
16), because the Glass (mult times 2) and Mult (mult plus 4)
enhancements do not commute. Repeated invocations of score on this
round may therefore disagree. -/
theorem C1_score_depends_on_iteration_order :
    determine_poker_hand mixed_mod_straight_round.cards_played
      mixed_mod_straight_round.jokers =
      some (PokerHand.Straight, straight_subset_a) ∧
    straight_subset_a.Perm straight_subset_b ∧
    score_pipeline mixed_mod_straight_round PokerHand.Straight straight_subset_a =
      some (56, 12) ∧
    score_pipeline mixed_mod_straight_round PokerHand.Straight straight_subset_b =
      some (56, 16) := by
  refine ⟨by decide, ?_, by decide, by decide⟩
  decide

/-- Claim C2 counterexample: a round with non-empty cards_played, an
empty held hand and a RaisedFist joker makes score panic (None): the
min_by_key unwrap over the empty held hand fails. -/
theorem C2_cex :
    raised_fist_empty_round.cards_played ≠ [] ∧
    score raised_fist_empty_round = none := by
  constructor <;> decide

/-- Claim C3 counterexample: a five-card hand with exactly four
dominant-suit cards and FourFingers active classifies as Flush, but the
returned scored subset is the entire five-card played hand (including
the off-suit King of Spades), not the four matched cards. -/
theorem C3_cex :
    determine_poker_hand four_heart_cards [plain_joker .FourFingers] =
      some (PokerHand.Flush, four_heart_cards) ∧
    four_heart_cards.length ≠ 4 := by
  constructor <;> decide

/-- Claim C4 counterexample: with FourFingers active, the hand Three,
Four, Five, Six, Ace contains four strictly consecutive ranks yet
classifies as HighCard, not Straight: the window from Six to Ace clears
the straight accumulator. -/
theorem C4_cex :
    determine_poker_hand ace_after_run_cards [plain_joker .FourFingers] =
      some (PokerHand.HighCard, [plain .Ace .Hearts]) ∧
    PokerHand.HighCard ≠ PokerHand.Straight := by
  constructor <;> decide

/-- Claim C4 amended: with FourFingers active, four strictly
consecutive cards classify as Straight when the non-consecutive fifth
card comes first in sorted order (Two, Five, Six, Seven, Eight), but
not when it sorts after the run (Three, Four, Five, Six, Ace yields
HighCard, since the trailing gap clears the accumulated run). -/
theorem C4_amended :
    determine_poker_hand run_at_top_cards [plain_joker .FourFingers] =
      some (PokerHand.Straight,
        [plain .Five .Spades, plain .Six .Clubs, plain .Seven .Diamonds,
         plain .Eight .Hearts]) ∧
    determine_poker_hand ace_after_run_cards [plain_joker .FourFingers] =
      some (PokerHand.HighCard, [plain .Ace .Hearts]) := by
  constructor <;> decide

/-- Claim C8 counterexample: appending one plain Joker to a round that
already holds an AbstractJoker raises mult by 7, not 4: the
AbstractJoker bonus of 3 per joker grows with the joker count. -/
theorem C8_cex :
    score abstract_round = some (7, 4) ∧
    score { abstract_round with
      jokers := abstract_round.jokers ++ [plain_joker .Joker] } = some (7, 11) ∧
    (11 : ℚ) ≠ 4 + 4 := by
  refine ⟨by decide, by decide, by decide⟩

theorem compute_enhancement_append (l1 l2 : List Card) (chip mul : ℚ) (ih : Bool) :
    compute_enhancement (l1 ++ l2) chip mul ih =
      compute_enhancement l2 (compute_enhancement l1 chip mul ih).1
        (compute_enhancement l1 chip mul ih).2 ih := by
  induction l1 generalizing chip mul with
  | nil => rfl
  | cons c rest ih2 =>
    simp only [List.cons_append, compute_enhancement]
    exact ih2 _ _

/-- Claim C9: compute_enhancement folds over the cards left to right,
applying each card's enhancement before its edition. A Glass plus
Polychrome card multiplies whatever mult was accumulated before it by 2
and then by 1.5 and hands the product on; a Mult plus Polychrome card
yields (mult plus 4) times 1.5, witnessing that the enhancement is
applied before the edition. -/
theorem C9_enhancement_before_edition :
    (∀ (r : Rank) (s : Suit) (pre post : List Card) (chip mul : ℚ),
      compute_enhancement
          (pre ++ (⟨r, s, some .Glass, some .Polychrome⟩ : Card) :: post)
          chip mul false =
        compute_enhancement post (compute_enhancement pre chip mul false).1
          ((compute_enhancement pre chip mul false).2 * 2 * 1.5) false) ∧
    (∀ (r : Rank) (s : Suit) (chip mul : ℚ),
      compute_enhancement [(⟨r, s, some .Mult, some .Polychrome⟩ : Card)]
          chip mul false = (chip, (mul + 4) * 1.5)) := by
  constructor
  · intro r s pre post chip mul
    rw [show pre ++ (⟨r, s, some .Glass, some .Polychrome⟩ : Card) :: post =
      (pre ++ [⟨r, s, some .Glass, some .Polychrome⟩]) ++ post by simp,
      compute_enhancement_append, compute_enhancement_append]
    simp [compute_enhancement, apply_enhancement, apply_edition]
  · intro r s chip mul
    simp [compute_enhancement, apply_enhancement, apply_edition]

theorem insert_sorted_length (c : Card) (l : List Card) :
    (insert_sorted c l).length = l.length + 1 := by
  induction l with
  | nil => rfl
  | cons x xs ih =>
    simp only [insert_sorted]
    split
    · simp
    · simp [ih]

theorem sort_cards_length_aux (l acc : List Card) :
    (l.foldl (fun acc c => insert_sorted c acc) acc).length =
      acc.length + l.length := by
  induction l generalizing acc with
  | nil => simp
  | cons c rest ih =>
    simp only [List.foldl_cons, ih, insert_sorted_length, List.length_cons]
    omega

theorem sort_cards_length (cards : List Card) :
    (sort_cards cards).length = cards.length := by
  simp [sort_cards, sort_cards_length_aux]

theorem check_high_card_flush_full (cards sorted : List Card) (ff : Bool)
    (sc : List Card)
    (h : check_high_card cards sorted ff = some (PokerHand.Flush, sc)) :
    sc = cards := by
  unfold check_high_card at h
  split at h <;> cases h

theorem check_pair_flush_full (cards sorted : List Card) (ff : Bool)
    (sc : List Card)
    (h : check_pair cards sorted ff = some (PokerHand.Flush, sc)) :
    sc = cards := by
  unfold check_pair at h
  split at h
  · cases h
  · exact check_high_card_flush_full cards sorted ff sc h

theorem check_two_pair_flush_full (cards sorted : List Card) (ff : Bool)
    (sc : List Card)
    (h : check_two_pair cards sorted ff = some (PokerHand.Flush, sc)) :
    sc = cards := by
  unfold check_two_pair at h
  split at h
  · cases h
  · exact check_pair_flush_full cards sorted ff sc h

theorem check_three_flush_full (cards sorted : List Card) (ff : Bool)
    (sc : List Card)
    (h : check_three_of_a_kind cards sorted ff = some (PokerHand.Flush, sc)) :
    sc = cards := by
  unfold check_three_of_a_kind at h
  split at h
  · cases h
  · exact check_two_pair_flush_full cards sorted ff sc h

theorem check_straight_flush_full_sub (cards sorted : List Card) (ff : Bool)
    (sc : List Card)
    (h : check_straight cards sorted ff = some (PokerHand.Flush, sc)) :
    sc = cards := by
  unfold check_straight at h
  split at h
  · cases h
  · split at h
    · cases h
    · exact check_three_flush_full cards sorted ff sc h

theorem check_flush_flush_full (cards sorted : List Card) (ff : Bool)
    (sc : List Card)
    (h : check_flush cards sorted ff = some (PokerHand.Flush, sc)) :
    sc = cards := by
  unfold check_flush at h
  split at h
  · cases h
  · split at h
    · cases h
      rfl
    · exact check_straight_flush_full_sub cards sorted ff sc h

theorem check_full_house_flush_full (cards sorted : List Card) (ff : Bool)
    (sc : List Card)
    (h : check_full_house cards sorted ff = some (PokerHand.Flush, sc)) :
    sc = cards := by
  unfold check_full_house at h
  split at h
  · cases h
  · exact check_flush_flush_full cards sorted ff sc h

theorem check_four_flush_full (cards sorted : List Card) (ff : Bool)
    (sc : List Card)
    (h : check_four_of_a_kind cards sorted ff = some (PokerHand.Flush, sc)) :
    sc = cards := by
  unfold check_four_of_a_kind at h
  split at h
  · cases h
  · exact check_full_house_flush_full cards sorted ff sc h

theorem check_sf_flush_full (cards sorted : List Card) (ff : Bool)
    (sc : List Card)
    (h : check_straight_flush cards sorted ff = some (PokerHand.Flush, sc)) :
    sc = cards := by
  unfold check_straight_flush at h
  split at h
  · cases h
  · split at h
    · cases h
    · split at h
      · cases h
      · exact check_four_flush_full cards sorted ff sc h

theorem check_five_flush_full (cards sorted : List Card) (ff : Bool)
    (sc : List Card)
    (h : check_five_of_a_kind cards sorted ff = some (PokerHand.Flush, sc)) :
    sc = cards := by
  unfold check_five_of_a_kind at h
  split at h
  · cases h
  · exact check_sf_flush_full cards sorted ff sc h

theorem check_fh_flush_full (cards sorted : List Card) (ff : Bool)
    (sc : List Card)
    (h : check_flush_house cards sorted ff = some (PokerHand.Flush, sc)) :
    sc = cards := by
  unfold check_flush_house at h
  split at h
  · cases h
  · split at h
    · cases h
    · exact check_five_flush_full cards sorted ff sc h

/-- Claim C3 amended: whenever classification returns Flush, the scored
subset it returns is the entire played hand, not only the matched
dominant-suit cards (so with FourFingers and four matched cards the
subset still has five elements). -/
theorem C3_amended (cards : List Card) (jokers : List JokerCard) (sc : List Card)
    (h : determine_poker_hand cards jokers = some (PokerHand.Flush, sc)) :
    sc = cards := by
  unfold determine_poker_hand determine_hand_core determine_hand_sorted at h
  split at h
  · cases h
  · split at h
    · cases h
    · exact check_fh_flush_full cards (sort_cards cards) _ sc h

/-- Claim C3 amended witness: the concrete four-heart FourFingers hand. -/
theorem C3_amended_witness : four_heart_cards = four_heart_cards :=
  C3_amended four_heart_cards [plain_joker .FourFingers] four_heart_cards
    (by decide)

/-- Claim C5: a five-card hand whose sorted sequence is simultaneously a
five-card flush and a five-card straight, with no FlushFive, FlushHouse
or FiveOfAKind present, classifies as StraightFlush (never Flush or
Straight individually). -/
theorem C5_straight_flush_priority (cards : List Card) (jokers : List JokerCard)
    (f5 fh fl : List Card)
    (hlen : cards.length = 5)
    (hf5 : is_flush_five (sort_cards cards) = some f5)
    (hf5a : f5.length ≠ 5) (hf5b : f5.length ≠ 4)
    (hfh : is_flush_house (sort_cards cards) = some fh)
    (hfhn : fh.length ≠ 5)
    (h5k : (is_five_of_a_kind (sort_cards cards)).length ≠ 5)
    (hfl : is_flush (sort_cards cards) = some fl)
    (hfl5 : fl.length = 5)
    (hst5 : (is_straight (sort_cards cards)).length = 5) :
    determine_poker_hand cards jokers = some (PokerHand.StraightFlush, cards) := by
  have hsflen : (sort_cards cards).length = 5 := by rw [sort_cards_length, hlen]
  have hsf : is_straight_flush (sort_cards cards)
      (jokers.any (fun card => card.joker = Joker.FourFingers)) =
      some (sort_cards cards) := by
    unfold is_straight_flush
    simp only [hfl]
    rw [if_pos ⟨hfl5, hst5⟩]
  unfold determine_poker_hand determine_hand_core determine_hand_sorted
    check_flush_house check_five_of_a_kind check_straight_flush
  simp only [hf5, hfh, hsf, hf5a, hf5b, hfhn, h5k, hsflen, false_and, and_false,
    or_self, false_or, or_false, if_false, ite_false, if_true, ite_true,
    not_false_iff]

theorem hand_value_mult_ge_one (h : PokerHand) : 1 ≤ (hand_value h).2 := by
  cases h <;> norm_num [hand_value]

theorem rank_value_nonneg (rk : Rank) : 0 ≤ rk.rank_value := by
  cases rk <;> norm_num [Rank.rank_value]

theorem apply_enhancement_mult_le (e : Enhancement) (chip mul : ℚ) (ih : Bool)
    (h : 0 ≤ mul) : mul ≤ (apply_enhancement e chip mul ih).2 := by
  cases e <;> cases ih <;> simp [apply_enhancement] <;> linarith

theorem apply_edition_mult_le (e : Edition) (chip mul : ℚ) (ih : Bool)
    (h : 0 ≤ mul) : mul ≤ (apply_edition e chip mul ih).2 := by
  cases e <;> cases ih <;> simp [apply_edition] <;> linarith

theorem compute_enhancement_mult_le (cards : List Card) :
    ∀ (chip mul : ℚ) (ih : Bool), 0 ≤ mul →
      mul ≤ (compute_enhancement cards chip mul ih).2 := by
  induction cards with
  | nil => intro chip mul ih h; simp [compute_enhancement]
  | cons card rest ihr =>
    intro chip mul ih h
    cases he : card.enhancement with
    | none =>
      cases hed : card.edition with
      | none =>
        simp only [compute_enhancement, he, hed]
        exact ihr chip mul ih h
      | some ed =>
        simp only [compute_enhancement, he, hed]
        have h1 := apply_edition_mult_le ed chip mul ih h
        exact le_trans h1 (ihr _ _ _ (le_trans h h1))
    | some e =>
      cases hed : card.edition with
      | none =>
        simp only [compute_enhancement, he, hed]
        have h1 := apply_enhancement_mult_le e chip mul ih h
        exact le_trans h1 (ihr _ _ _ (le_trans h h1))
      | some ed =>
        simp only [compute_enhancement, he, hed]
        have h1 := apply_enhancement_mult_le e chip mul ih h
        have h2 := apply_edition_mult_le ed (apply_enhancement e chip mul ih).1
          (apply_enhancement e chip mul ih).2 ih (le_trans h h1)
        exact le_trans (le_trans h1 h2) (ihr _ _ _ (le_trans h (le_trans h1 h2)))

theorem foldl_mult_le {α : Type} (f : ℚ → α → ℚ)
    (hf : ∀ (m : ℚ) (x : α), 0 ≤ m → m ≤ f m x) :
    ∀ (l : List α) (m : ℚ), 0 ≤ m → m ≤ l.foldl f m := by
  intro l
  induction l with
  | nil => intro m h; simp
  | cons x rest ih =>
    intro m h
    have h1 := hf m x h
    simpa using le_trans h1 (ih (f m x) (le_trans h h1))

theorem easy_base_mult_le (j : Joker) (res : ℚ × ℚ) :
    res.2 ≤ (easy_base j res).2 := by
  unfold easy_base; split_ifs <;> simp <;> linarith

theorem easy_jolly_sly_mult_le (j : Joker) (hand : PokerHand) (res : ℚ × ℚ) :
    res.2 ≤ (easy_jolly_sly j hand res).2 := by
  unfold easy_jolly_sly; split_ifs <;> simp <;> linarith

theorem easy_zany_wily_mult_le (j : Joker) (hand : PokerHand) (res : ℚ × ℚ) :
    res.2 ≤ (easy_zany_wily j hand res).2 := by
  unfold easy_zany_wily; split_ifs <;> simp <;> linarith

theorem easy_mad_clever_mult_le (j : Joker) (hand : PokerHand) (res : ℚ × ℚ) :
    res.2 ≤ (easy_mad_clever j hand res).2 := by
  unfold easy_mad_clever; split_ifs <;> simp <;> linarith

theorem easy_crazy_devious_mult_le (j : Joker) (hand : PokerHand) (res : ℚ × ℚ) :
    res.2 ≤ (easy_crazy_devious j hand res).2 := by
  unfold easy_crazy_devious; split_ifs <;> simp <;> linarith

theorem easy_droll_crafty_mult_le (j : Joker) (hand : PokerHand) (res : ℚ × ℚ) :
    res.2 ≤ (easy_droll_crafty j hand res).2 := by
  unfold easy_droll_crafty; split_ifs <;> simp <;> linarith

theorem easy_abstract_mult_le (j : Joker) (n : ℕ) (res : ℚ × ℚ) :
    res.2 ≤ (easy_abstract j n res).2 := by
  unfold easy_abstract
  split_ifs <;> simp

theorem apply_easy_jokers_mult_le (j : Joker) (hand : PokerHand) (n : ℕ)
    (chip mul : ℚ) : mul ≤ (apply_easy_jokers j hand n chip mul).2 := by
  unfold apply_easy_jokers
  calc mul = ((chip, mul) : ℚ × ℚ).2 := rfl
    _ ≤ (easy_base j (chip, mul)).2 := easy_base_mult_le _ _
    _ ≤ _ := easy_jolly_sly_mult_le _ _ _
    _ ≤ _ := easy_zany_wily_mult_le _ _ _
    _ ≤ _ := easy_mad_clever_mult_le _ _ _
    _ ≤ _ := easy_crazy_devious_mult_le _ _ _
    _ ≤ _ := easy_droll_crafty_mult_le _ _ _
    _ ≤ _ := easy_abstract_mult_le _ _ _

theorem raised_fist_bonus_nonneg (on_held : List Card) (b : ℚ)
    (h : raised_fist_bonus on_held = some b) : 0 ≤ b := by
  unfold raised_fist_bonus at h
  split at h
  · cases h
  · split at h
    · cases h
    · rename_i last hlast
      cases h
      have := rank_value_nonneg last.rank
      linarith

theorem medium_raised_fist_mult_le (j : Joker) (on_held : List Card)
    (res r : ℚ × ℚ) (h0 : 0 ≤ res.2)
    (h : medium_raised_fist j on_held res = some r) : res.2 ≤ r.2 := by
  unfold medium_raised_fist at h
  split at h
  · split at h
    · cases h
    · rename_i b hb
      cases h
      have hbn := raised_fist_bonus_nonneg on_held b hb
      simp
      linarith
  · cases h
    exact le_refl _

theorem medium_blackboard_mult_le (j : Joker) (on_held : List Card)
    (res : ℚ × ℚ) (h0 : 0 ≤ res.2) :
    res.2 ≤ (medium_blackboard j on_held res).2 := by
  simp only [medium_blackboard]
  split_ifs <;> simp <;> linarith

theorem medium_baron_mult_le (j : Joker) (on_held : List Card)
    (res : ℚ × ℚ) (h0 : 0 ≤ res.2) :
    res.2 ≤ (medium_baron j on_held res).2 := by
  unfold medium_baron
  split_ifs with hj
  · simp only
    refine foldl_mult_le _ ?_ on_held res.2 h0
    intro m c hm
    split_ifs <;> linarith
  · exact le_refl _

theorem medium_suit_fold_mult_le (main other : Suit) (smeared : Bool)
    (on_scored : List Card) (m : ℚ) (h0 : 0 ≤ m) :
    m ≤ medium_suit_fold main other smeared on_scored m := by
  unfold medium_suit_fold
  refine foldl_mult_le _ ?_ on_scored m h0
  intro m c hm
  split_ifs <;> linarith

theorem medium_suit_jokers_mult_le (j : Joker) (on_scored : List Card)
    (smeared : Bool) (res : ℚ × ℚ) (h0 : 0 ≤ res.2) :
    res.2 ≤ (medium_suit_jokers j on_scored smeared res).2 := by
  unfold medium_suit_jokers
  split_ifs <;> simp <;> exact medium_suit_fold_mult_le _ _ _ _ _ h0

theorem medium_fibonacci_mult_le (j : Joker) (on_scored : List Card)
    (res : ℚ × ℚ) (h0 : 0 ≤ res.2) :
    res.2 ≤ (medium_fibonacci j on_scored res).2 := by
  unfold medium_fibonacci
  split_ifs
  · simp only
    refine foldl_mult_le _ ?_ on_scored res.2 h0
    intro m c hm
    split_ifs <;> linarith
  · exact le_refl _

theorem medium_scary_face_mult_eq (j : Joker) (on_scored : List Card)
    (pare : Bool) (res : ℚ × ℚ) :
    (medium_scary_face j on_scored pare res).2 = res.2 := by
  unfold medium_scary_face
  split_ifs <;> rfl

theorem medium_even_steven_mult_le (j : Joker) (on_scored : List Card)
    (res : ℚ × ℚ) (h0 : 0 ≤ res.2) :
    res.2 ≤ (medium_even_steven j on_scored res).2 := by
  unfold medium_even_steven
  split_ifs
  · simp only
    refine foldl_mult_le _ ?_ on_scored res.2 h0
    intro m c hm
    split_ifs <;> linarith
  · exact le_refl _

theorem medium_odd_todd_mult_eq (j : Joker) (on_scored : List Card)
    (res : ℚ × ℚ) : (medium_odd_todd j on_scored res).2 = res.2 := by
  unfold medium_odd_todd
  split_ifs <;> rfl

theorem photograph_fold_le (pare : Bool) :
    ∀ (l : List Card) (m : ℚ) (found : Bool), 0 ≤ m →
      m ≤ photograph_fold pare l m found := by
  intro l
  induction l with
  | nil => intro m found h; simp [photograph_fold]
  | cons c rest ih =>
    intro m found h
    unfold photograph_fold
    split_ifs
    · have h1 : m ≤ m * 2 := by linarith
      exact le_trans h1 (ih (m * 2) true (by linarith))
    · exact ih m found h

theorem medium_photograph_mult_le (j : Joker) (on_scored : List Card)
    (pare : Bool) (res : ℚ × ℚ) (h0 : 0 ≤ res.2) :
    res.2 ≤ (medium_photograph j on_scored pare res).2 := by
  unfold medium_photograph
  split_ifs
  · exact photograph_fold_le pare on_scored res.2 false h0
  · exact le_refl _

theorem medium_smiley_mult_le (j : Joker) (on_scored : List Card)
    (pare : Bool) (res : ℚ × ℚ) (h0 : 0 ≤ res.2) :
    res.2 ≤ (medium_smiley j on_scored pare res).2 := by
  unfold medium_smiley
  split_ifs
  · simp only
    refine foldl_mult_le _ ?_ on_scored res.2 h0
    intro m c hm
    split_ifs <;> linarith
  · exact le_refl _

theorem medium_flower_pot_mult_le (j : Joker) (on_scored : List Card)
    (smeared : Bool) (res : ℚ × ℚ) (h0 : 0 ≤ res.2) :
    res.2 ≤ (medium_flower_pot j on_scored smeared res).2 := by
  simp only [medium_flower_pot]
  split_ifs <;> simp <;> linarith

theorem medium_rest_mult_le (j : Joker) (on_held on_scored : List Card)
    (pare smeared : Bool) (res : ℚ × ℚ) (h0 : 0 ≤ res.2) :
    res.2 ≤ (medium_rest j on_held on_scored pare smeared res).2 := by
  unfold medium_rest
  set a1 := medium_blackboard j on_held res with ha1
  set a2 := medium_baron j on_held a1 with ha2
  set a3 := medium_suit_jokers j on_scored smeared a2 with ha3
  set a4 := medium_fibonacci j on_scored a3 with ha4
  set a5 := medium_scary_face j on_scored pare a4 with ha5
  set a6 := medium_even_steven j on_scored a5 with ha6
  set a7 := medium_odd_todd j on_scored a6 with ha7
  set a8 := medium_photograph j on_scored pare a7 with ha8
  set a9 := medium_smiley j on_scored pare a8 with ha9
  have l1 : res.2 ≤ a1.2 := medium_blackboard_mult_le j on_held res h0
  have n1 : (0:ℚ) ≤ a1.2 := le_trans h0 l1
  have l2 : a1.2 ≤ a2.2 := medium_baron_mult_le j on_held a1 n1
  have n2 : (0:ℚ) ≤ a2.2 := le_trans n1 l2
  have l3 : a2.2 ≤ a3.2 := medium_suit_jokers_mult_le j on_scored smeared a2 n2
  have n3 : (0:ℚ) ≤ a3.2 := le_trans n2 l3
  have l4 : a3.2 ≤ a4.2 := medium_fibonacci_mult_le j on_scored a3 n3
  have n4 : (0:ℚ) ≤ a4.2 := le_trans n3 l4
  have l5 : a4.2 ≤ a5.2 :=
    le_of_eq (medium_scary_face_mult_eq j on_scored pare a4).symm
  have n5 : (0:ℚ) ≤ a5.2 := le_trans n4 l5
  have l6 : a5.2 ≤ a6.2 := medium_even_steven_mult_le j on_scored a5 n5
  have n6 : (0:ℚ) ≤ a6.2 := le_trans n5 l6
  have l7 : a6.2 ≤ a7.2 := le_of_eq (medium_odd_todd_mult_eq j on_scored a6).symm
  have n7 : (0:ℚ) ≤ a7.2 := le_trans n6 l7
  have l8 : a7.2 ≤ a8.2 := medium_photograph_mult_le j on_scored pare a7 n7
  have n8 : (0:ℚ) ≤ a8.2 := le_trans n7 l8
  have l9 : a8.2 ≤ a9.2 := medium_smiley_mult_le j on_scored pare a8 n8
  have n9 : (0:ℚ) ≤ a9.2 := le_trans n8 l9
  have l10 : a9.2 ≤ (medium_flower_pot j on_scored smeared a9).2 :=
    medium_flower_pot_mult_le j on_scored smeared a9 n9
  linarith

theorem apply_medium_jokers_mult_le (j : Joker) (on_held on_scored : List Card)
    (chip mul : ℚ) (pare smeared : Bool) (r : ℚ × ℚ) (h0 : 0 ≤ mul)
    (h : apply_medium_jokers j on_held on_scored chip mul pare smeared = some r) :
    mul ≤ r.2 := by
  unfold apply_medium_jokers at h
  split at h
  · cases h
  · rename_i res0 hres0
    cases h
    have h1 : mul ≤ res0.2 := medium_raised_fist_mult_le j on_held (chip, mul) res0 h0 hres0
    exact le_trans h1 (medium_rest_mult_le j on_held on_scored pare smeared res0
      (le_trans h0 h1))

theorem joker_pass_mult_le (step : ℚ × ℚ → JokerCard → Option (ℚ × ℚ))
    (hstep : ∀ (res : ℚ × ℚ) (jc : JokerCard) (r : ℚ × ℚ), 0 ≤ res.2 →
      step res jc = some r → res.2 ≤ r.2) :
    ∀ (l : List JokerCard) (res r : ℚ × ℚ), 0 ≤ res.2 →
      joker_pass step l res = some r → res.2 ≤ r.2 := by
  intro l
  induction l with
  | nil =>
    intro res r h0 h
    cases h
    exact le_refl _
  | cons jc rest ih =>
    intro res r h0 h
    unfold joker_pass at h
    split at h
    · cases h
    · rename_i mid hmid
      have h1 := hstep res jc mid h0 hmid
      exact le_trans h1 (ih mid r (le_trans h0 h1) h)

theorem edition_pass_mult_le (l : List JokerCard) :
    ∀ (res : ℚ × ℚ), 0 ≤ res.2 → res.2 ≤ (edition_pass l res).2 := by
  induction l with
  | nil => intro res h0; simp [edition_pass]
  | cons jc rest ih =>
    intro res h0
    unfold edition_pass
    simp only [List.foldl_cons]
    cases hed : jc.edition with
    | none => exact ih res h0
    | some e =>
      have h1 := apply_edition_mult_le e res.1 res.2 false h0
      exact le_trans h1 (ih _ (le_trans h0 h1))

theorem joker_application_mult_le (joker_cards : List JokerCard)
    (on_held on_scored : List Card) (hand : PokerHand) (chip mul : ℚ)
    (r : ℚ × ℚ) (h0 : 0 ≤ mul)
    (h : joker_application joker_cards on_held on_scored hand chip mul = some r) :
    mul ≤ r.2 := by
  simp only [joker_application] at h
  obtain ⟨r1, hr1, h⟩ := Option.bind_eq_some.mp h
  obtain ⟨r2, hr2, h⟩ := Option.bind_eq_some.mp h
  obtain ⟨r3, hr3, h⟩ := Option.map_eq_some'.mp h
  have s1 := joker_pass_mult_le _
    (fun res jc rr hh hs => apply_medium_jokers_mult_le jc.joker on_held
      on_scored res.1 res.2 _ _ rr hh hs) _ (chip, mul) r1 h0 hr1
  have s2 := joker_pass_mult_le _
    (fun res jc rr hh hs => apply_medium_jokers_mult_le jc.joker on_held
      on_scored res.1 res.2 _ _ rr hh hs) _ r1 r2 (le_trans h0 s1) hr2
  have s3 := joker_pass_mult_le _
    (fun res jc rr hh hs =>
      le_trans (apply_easy_jokers_mult_le jc.joker hand joker_cards.length
          res.1 res.2)
        (apply_medium_jokers_mult_le jc.joker on_held on_scored _ _ _ _ rr
          (le_trans hh (apply_easy_jokers_mult_le jc.joker hand
            joker_cards.length res.1 res.2)) hs))
    _ r2 r3 (le_trans (le_trans h0 s1) s2) hr3
  have s4 := edition_pass_mult_le joker_cards r3
    (le_trans (le_trans (le_trans h0 s1) s2) s3)
  rw [← h]
  exact le_trans (le_trans (le_trans s1 s2) s3) s4

/-- Claim C6: for every round, the mult returned by score is at least
the base mult of the combination the classifier detected: every
multiplicative effect along the pipeline is a factor of at least 1 on a
nonnegative mult and every additive mult effect is nonnegative. -/
theorem C6_mult_ge_base (round : Round) (c m : ℚ) (hand : PokerHand)
    (sc : List Card)
    (hs : score round = some (c, m))
    (hd : determine_poker_hand round.cards_played round.jokers = some (hand, sc)) :
    (hand_value hand).2 ≤ m := by
  unfold score at hs
  rw [hd] at hs
  replace hs : joker_application round.jokers round.cards_held_in_hand
      (score_working_set round sc) hand
      (compute_enhancement round.cards_held_in_hand
        (compute_enhancement (score_working_set round sc)
          (score_base_chips hand (score_working_set round sc))
          (hand_value hand).2 false).1
        (compute_enhancement (score_working_set round sc)
          (score_base_chips hand (score_working_set round sc))
          (hand_value hand).2 false).2 true).1
      (compute_enhancement round.cards_held_in_hand
        (compute_enhancement (score_working_set round sc)
          (score_base_chips hand (score_working_set round sc))
          (hand_value hand).2 false).1
        (compute_enhancement (score_working_set round sc)
          (score_base_chips hand (score_working_set round sc))
          (hand_value hand).2 false).2 true).2 = some (c, m) := hs
  have h0 : (0:ℚ) ≤ (hand_value hand).2 :=
    le_trans zero_le_one (hand_value_mult_ge_one hand)
  have s1 := compute_enhancement_mult_le (score_working_set round sc)
    (score_base_chips hand (score_working_set round sc)) (hand_value hand).2
    false h0
  have s2 := compute_enhancement_mult_le round.cards_held_in_hand
    (compute_enhancement (score_working_set round sc)
      (score_base_chips hand (score_working_set round sc))
      (hand_value hand).2 false).1
    (compute_enhancement (score_working_set round sc)
      (score_base_chips hand (score_working_set round sc))
      (hand_value hand).2 false).2 true (le_trans h0 s1)
  have s3 := joker_application_mult_le round.jokers round.cards_held_in_hand
    (score_working_set round sc) hand _ _ (c, m)
    (le_trans h0 (le_trans s1 s2)) hs
  exact le_trans (le_trans s1 (le_trans s2 s3)) (le_refl m)

/-- Claim C6 witness: the Pair scenario round, whose final mult 2 is at
least the Pair base mult 2. -/
theorem C6_witness : (hand_value PokerHand.Pair).2 ≤ 2 :=
  C6_mult_ge_base pair_round 36 2 PokerHand.Pair
    [plain .King .Hearts, plain .King .Spades] (by decide) (by decide)

theorem sort_cards_ne_nil (cards : List Card) (h : cards ≠ []) :
    sort_cards cards ≠ [] := by
  intro hc
  apply h
  have := sort_cards_length cards
  rw [hc] at this
  exact List.length_eq_zero.mp this.symm

theorem is_flush_five_isSome (sorted : List Card) (h : sorted ≠ []) :
    (is_flush_five sorted).isSome := by
  unfold is_flush_five
  cases sorted with
  | nil => exact absurd rfl h
  | cons c rest => simp

theorem compute_most_appear_suit_isSome (cards : List Card) (h : cards ≠ []) :
    (compute_most_appear_suit cards).isSome := by
  unfold compute_most_appear_suit
  cases cards with
  | nil => exact absurd rfl h
  | cons c rest => simp

theorem is_flush_isSome (cards : List Card) (h : cards ≠ []) :
    (is_flush cards).isSome := by
  unfold is_flush
  obtain ⟨s, hs⟩ := Option.isSome_iff_exists.mp (compute_most_appear_suit_isSome cards h)
  rw [hs]
  simp

theorem is_flush_house_isSome (cards : List Card) (h : cards ≠ []) :
    (is_flush_house cards).isSome := by
  unfold is_flush_house
  obtain ⟨s, hs⟩ := Option.isSome_iff_exists.mp (compute_most_appear_suit_isSome cards h)
  rw [hs]
  simp

theorem is_straight_flush_isSome (cards : List Card) (ff : Bool) (h : cards ≠ []) :
    (is_straight_flush cards ff).isSome := by
  unfold is_straight_flush
  obtain ⟨fl, hfl⟩ := Option.isSome_iff_exists.mp (is_flush_isSome cards h)
  simp only [hfl]
  split_ifs <;> simp

theorem is_high_card_isSome (cards : List Card) (h : cards ≠ []) :
    (is_high_card cards).isSome := by
  unfold is_high_card
  cases cards with
  | nil => exact absurd rfl h
  | cons c rest => simp

theorem check_high_card_isSome (cards sorted : List Card) (ff : Bool)
    (h : sorted ≠ []) : (check_high_card cards sorted ff).isSome := by
  unfold check_high_card
  obtain ⟨hc, hhc⟩ := Option.isSome_iff_exists.mp (is_high_card_isSome sorted h)
  rw [hhc]
  simp

theorem check_pair_isSome (cards sorted : List Card) (ff : Bool)
    (h : sorted ≠ []) : (check_pair cards sorted ff).isSome := by
  unfold check_pair
  split_ifs
  · simp
  · exact check_high_card_isSome cards sorted ff h

theorem check_two_pair_isSome (cards sorted : List Card) (ff : Bool)
    (h : sorted ≠ []) : (check_two_pair cards sorted ff).isSome := by
  unfold check_two_pair
  split_ifs
  · simp
  · exact check_pair_isSome cards sorted ff h

theorem check_three_isSome (cards sorted : List Card) (ff : Bool)
    (h : sorted ≠ []) : (check_three_of_a_kind cards sorted ff).isSome := by
  unfold check_three_of_a_kind
  split_ifs
  · simp
  · exact check_two_pair_isSome cards sorted ff h

theorem check_straight_isSome (cards sorted : List Card) (ff : Bool)
    (h : sorted ≠ []) : (check_straight cards sorted ff).isSome := by
  unfold check_straight
  split_ifs
  · simp
  · simp
  · exact check_three_isSome cards sorted ff h

theorem check_flush_isSome (cards sorted : List Card) (ff : Bool)
    (h : sorted ≠ []) : (check_flush cards sorted ff).isSome := by
  unfold check_flush
  obtain ⟨fl, hfl⟩ := Option.isSome_iff_exists.mp (is_flush_isSome sorted h)
  simp only [hfl]
  split_ifs
  · simp
  · exact check_straight_isSome cards sorted ff h

theorem check_full_house_isSome (cards sorted : List Card) (ff : Bool)
    (h : sorted ≠ []) : (check_full_house cards sorted ff).isSome := by
  unfold check_full_house
  split_ifs
  · simp
  · exact check_flush_isSome cards sorted ff h

theorem check_four_isSome (cards sorted : List Card) (ff : Bool)
    (h : sorted ≠ []) : (check_four_of_a_kind cards sorted ff).isSome := by
  unfold check_four_of_a_kind
  split_ifs
  · simp
  · exact check_full_house_isSome cards sorted ff h

theorem check_sf_isSome (cards sorted : List Card) (ff : Bool)
    (h : sorted ≠ []) : (check_straight_flush cards sorted ff).isSome := by
  unfold check_straight_flush
  obtain ⟨r4, hr4⟩ := Option.isSome_iff_exists.mp (is_straight_flush_isSome sorted ff h)
  simp only [hr4]
  split_ifs
  · simp
  · simp
  · exact check_four_isSome cards sorted ff h

theorem check_five_isSome (cards sorted : List Card) (ff : Bool)
    (h : sorted ≠ []) : (check_five_of_a_kind cards sorted ff).isSome := by
  unfold check_five_of_a_kind
  split_ifs
  · simp
  · exact check_sf_isSome cards sorted ff h

theorem check_fh_isSome (cards sorted : List Card) (ff : Bool)
    (h : sorted ≠ []) : (check_flush_house cards sorted ff).isSome := by
  unfold check_flush_house
  obtain ⟨r2, hr2⟩ := Option.isSome_iff_exists.mp (is_flush_house_isSome sorted h)
  simp only [hr2]
  split_ifs
  · simp
  · exact check_five_isSome cards sorted ff h

theorem determine_poker_hand_isSome (cards : List Card) (jokers : List JokerCard)
    (h : cards ≠ []) : (determine_poker_hand cards jokers).isSome := by
  unfold determine_poker_hand determine_hand_core determine_hand_sorted
  have hs := sort_cards_ne_nil cards h
  obtain ⟨r1, hr1⟩ := Option.isSome_iff_exists.mp
    (is_flush_five_isSome (sort_cards cards) hs)
  simp only [hr1]
  split_ifs
  · simp
  · exact check_fh_isSome cards (sort_cards cards) _ hs

theorem min_by_rank_mem (l : List Card) (m : Card) (h : min_by_rank l = some m) :
    m ∈ l := by
  unfold min_by_rank at h
  cases l with
  | nil => cases h
  | cons c rest =>
    cases h
    induction rest generalizing c with
    | nil => simp
    | cons y ys ih =>
      simp only [List.foldl_cons]
      rcases List.mem_cons.mp (ih (if y.rank.rank_value < c.rank.rank_value then y else c)) with hh | hh
      · rw [hh]
        split_ifs <;> simp
      · simp [hh]

theorem raised_fist_bonus_isSome (on_held : List Card) (h : on_held ≠ []) :
    (raised_fist_bonus on_held).isSome := by
  unfold raised_fist_bonus
  have hmin : (min_by_rank on_held).isSome := by
    unfold min_by_rank
    cases on_held with
    | nil => exact absurd rfl h
    | cons c rest => simp
  obtain ⟨m, hm⟩ := Option.isSome_iff_exists.mp hmin
  simp only [hm]
  have hmem : m ∈ on_held.filter
      (fun card => decide (card.rank.rank_value = m.rank.rank_value)) := by
    rw [List.mem_filter]
    exact ⟨min_by_rank_mem on_held m hm, by simp⟩
  have hne : on_held.filter
      (fun card => decide (card.rank.rank_value = m.rank.rank_value)) ≠ [] :=
    List.ne_nil_of_mem hmem
  obtain ⟨last, hlast⟩ := Option.isSome_iff_exists.mp
    (List.getLast?_isSome.mpr hne)
  simp only [hlast]
  simp

theorem medium_raised_fist_isSome (j : Joker) (on_held : List Card) (res : ℚ × ℚ)
    (h : j = Joker.RaisedFist → on_held ≠ []) :
    (medium_raised_fist j on_held res).isSome := by
  unfold medium_raised_fist
  split_ifs with hj
  · obtain ⟨b, hb⟩ := Option.isSome_iff_exists.mp
      (raised_fist_bonus_isSome on_held (h hj))
    simp only [hb]
    simp
  · simp

theorem apply_medium_jokers_isSome (j : Joker) (on_held on_scored : List Card)
    (chip mul : ℚ) (pare smeared : Bool)
    (h : j = Joker.RaisedFist → on_held ≠ []) :
    (apply_medium_jokers j on_held on_scored chip mul pare smeared).isSome := by
  unfold apply_medium_jokers
  obtain ⟨res, hres⟩ := Option.isSome_iff_exists.mp
    (medium_raised_fist_isSome j on_held (chip, mul) h)
  simp only [hres]
  simp

theorem joker_pass_isSome (step : ℚ × ℚ → JokerCard → Option (ℚ × ℚ))
    (l : List JokerCard)
    (hstep : ∀ (res : ℚ × ℚ) (jc : JokerCard), jc ∈ l → (step res jc).isSome) :
    ∀ res : ℚ × ℚ, (joker_pass step l res).isSome := by
  induction l with
  | nil => intro res; simp [joker_pass]
  | cons jc rest ih =>
    intro res
    unfold joker_pass
    obtain ⟨mid, hmid⟩ := Option.isSome_iff_exists.mp
      (hstep res jc (List.mem_cons_self jc rest))
    simp only [hmid]
    exact ih (fun r j hj => hstep r j (List.mem_cons_of_mem jc hj)) mid

theorem opt_step_isSome {A B : Type} (o : Option A) (f : A → Option B)
    (ho : o.isSome) (hf : ∀ x : A, (f x).isSome) : (o.bind f).isSome := by
  cases o with
  | none => cases ho
  | some x => exact hf x

theorem opt_map_isSome {A B : Type} (o : Option A) (f : A → B)
    (ho : o.isSome) : (o.map f).isSome := by
  cases o with
  | none => cases ho
  | some x => simp

theorem joker_application_isSome (joker_cards : List JokerCard)
    (on_held on_scored : List Card) (hand : PokerHand) (chip mul : ℚ)
    (h : (∃ jc ∈ joker_cards, jc.joker = Joker.RaisedFist) → on_held ≠ []) :
    (joker_application joker_cards on_held on_scored hand chip mul).isSome := by
  simp only [joker_application]
  apply opt_step_isSome
  · apply joker_pass_isSome
    intro res jc hjc
    have hmem := (List.mem_filter.mp hjc).1
    exact apply_medium_jokers_isSome jc.joker on_held on_scored res.1 res.2
      _ _ (fun he => h ⟨jc, hmem, he⟩)
  · intro r1
    apply opt_step_isSome
    · apply joker_pass_isSome
      intro res jc hjc
      have hmem := (List.mem_filter.mp hjc).1
      exact apply_medium_jokers_isSome jc.joker on_held on_scored res.1 res.2
        _ _ (fun he => h ⟨jc, hmem, he⟩)
    · intro r2
      apply opt_map_isSome
      apply joker_pass_isSome
      intro res jc hjc
      have hmem := (List.mem_filter.mp hjc).1
      exact apply_medium_jokers_isSome jc.joker on_held on_scored _ _
        _ _ (fun he => h ⟨jc, hmem, he⟩)

/-- Claim C2 amended: score is total on every Round with non-empty
cards_played, provided additionally that the held hand is non-empty
whenever a RaisedFist joker is present; with RaisedFist and an empty
held hand the source panics on an unwrap of an empty minimum. -/
theorem C2_amended (round : Round)
    (h1 : round.cards_played ≠ [])
    (h2 : (∃ jc ∈ round.jokers, jc.joker = Joker.RaisedFist) →
      round.cards_held_in_hand ≠ []) :
    (score round).isSome := by
  unfold score
  obtain ⟨⟨hand, rc⟩, hd⟩ := Option.isSome_iff_exists.mp
    (determine_poker_hand_isSome round.cards_played round.jokers h1)
  simp only [hd]
  exact joker_application_isSome round.jokers round.cards_held_in_hand
    (score_working_set round rc) hand _ _ h2

/-- Claim C2 amended witness: a one-card round with RaisedFist and one
held card scores successfully. -/
theorem C2_amended_witness : (score raised_fist_held_round).isSome :=
  C2_amended raised_fist_held_round (by decide) (by decide)

theorem apply_easy_jokers_joker_base (hand : PokerHand) (n : ℕ) (c m : ℚ) :
    apply_easy_jokers Joker.Joker hand n c m = (c, m + 4) := by
  simp [apply_easy_jokers, easy_base, easy_jolly_sly, easy_zany_wily,
    easy_mad_clever, easy_crazy_devious, easy_droll_crafty, easy_abstract]

theorem apply_medium_jokers_joker_base (held scored : List Card) (c m : ℚ)
    (p s : Bool) :
    apply_medium_jokers Joker.Joker held scored c m p s = some (c, m) := by
  simp [apply_medium_jokers, medium_raised_fist, medium_rest, medium_blackboard,
    medium_baron, medium_suit_jokers, medium_fibonacci, medium_scary_face,
    medium_even_steven, medium_odd_todd, medium_photograph, medium_smiley,
    medium_flower_pot]

theorem apply_easy_jokers_len_congr (j : Joker) (hand : PokerHand) (n1 n2 : ℕ)
    (c m : ℚ) (hj : j ≠ Joker.AbstractJoker) :
    apply_easy_jokers j hand n1 c m = apply_easy_jokers j hand n2 c m := by
  simp [apply_easy_jokers, easy_abstract, hj]

theorem joker_pass_append_single (step : ℚ × ℚ → JokerCard → Option (ℚ × ℚ))
    (l : List JokerCard) (x : JokerCard) :
    ∀ res : ℚ × ℚ, joker_pass step (l ++ [x]) res =
      (joker_pass step l res).bind (fun r => step r x) := by
  induction l with
  | nil =>
    intro res
    simp only [List.nil_append, joker_pass]
    cases hs : step res x <;> simp [joker_pass, hs]
  | cons jc rest ih =>
    intro res
    simp only [List.cons_append, joker_pass]
    cases hs : step res jc <;> simp [ih]

theorem joker_pass_congr (step1 step2 : ℚ × ℚ → JokerCard → Option (ℚ × ℚ))
    (l : List JokerCard)
    (key : ∀ jc ∈ l, ∀ res : ℚ × ℚ, step1 res jc = step2 res jc) :
    ∀ res : ℚ × ℚ, joker_pass step1 l res = joker_pass step2 l res := by
  induction l with
  | nil => intro res; rfl
  | cons jc rest ih =>
    intro res
    simp only [joker_pass]
    rw [key jc (List.mem_cons_self jc rest) res]
    cases hs : step2 res jc with
    | none => rfl
    | some mid => exact ih (fun j hj r => key j (List.mem_cons_of_mem jc hj) r) mid

theorem joker_pass_indep_len (held scored : List Card) (hand : PokerHand)
    (jokers : List JokerCard) (n1 n2 : ℕ) (p s : Bool)
    (h1 : ∀ jc ∈ jokers, jc.joker ≠ Joker.AbstractJoker) :
    ∀ res : ℚ × ℚ,
      joker_pass (independent_step held scored hand n1 p s)
        (jokers.filter (fun card => decide (card.joker ∈ independent_jokers))) res =
      joker_pass (independent_step held scored hand n2 p s)
        (jokers.filter (fun card => decide (card.joker ∈ independent_jokers))) res := by
  have key : ∀ jc ∈ jokers.filter (fun card => decide (card.joker ∈ independent_jokers)),
      ∀ res : ℚ × ℚ, independent_step held scored hand n1 p s res jc =
        independent_step held scored hand n2 p s res jc := by
    intro jc hjc res
    unfold independent_step
    rw [apply_easy_jokers_len_congr jc.joker hand n1 n2 res.1 res.2
      (h1 jc (List.mem_filter.mp hjc).1)]
  exact joker_pass_congr _ _ _ key

theorem independent_step_joker (held scored : List Card) (hand : PokerHand)
    (n : ℕ) (p s : Bool) (res : ℚ × ℚ) :
    independent_step held scored hand n p s res ⟨Joker.Joker, none⟩ =
      some (res.1, res.2 + 4) := by
  unfold independent_step
  simp only [apply_easy_jokers_joker_base]
  exact apply_medium_jokers_joker_base held scored res.1 (res.2 + 4) p s

theorem edition_pass_append_joker (l : List JokerCard) (res : ℚ × ℚ) :
    edition_pass (l ++ [⟨Joker.Joker, none⟩]) res = edition_pass l res := by
  simp [edition_pass, List.foldl_append]

theorem edition_pass_add4 (l : List JokerCard)
    (h : ∀ jc ∈ l, jc.edition ≠ some Edition.Polychrome) :
    ∀ c m : ℚ, edition_pass l (c, m + 4) =
      ((edition_pass l (c, m)).1, (edition_pass l (c, m)).2 + 4) := by
  induction l with
  | nil => intro c m; rfl
  | cons jc rest ih =>
    intro c m
    have hrest : ∀ j ∈ rest, j.edition ≠ some Edition.Polychrome :=
      fun j hj => h j (List.mem_cons_of_mem jc hj)
    cases hed : jc.edition with
    | none =>
      simp only [edition_pass, List.foldl_cons, hed]
      exact ih hrest c m
    | some e =>
      cases e with
      | Foil =>
        simp only [edition_pass, List.foldl_cons, hed, apply_edition]
        exact ih hrest (c + 50) m
      | Holographic =>
        simp only [edition_pass, List.foldl_cons, hed, apply_edition]
        have hc : m + 4 + 10 = m + 10 + 4 := by ring
        rw [hc]
        exact ih hrest c (m + 10)
      | Polychrome => exact absurd hed (h jc (List.mem_cons_self jc rest))

theorem opt_bind_some_pair (o : Option (ℚ × ℚ)) :
    (o.bind fun r => some ((r.1, r.2 + 4) : ℚ × ℚ)) =
      o.map (fun r => (r.1, r.2 + 4)) := by
  cases o <;> simp

theorem any_single_joker_four_fingers :
    ([(⟨Joker.Joker, none⟩ : JokerCard)].any
      (fun card => card.joker = Joker.FourFingers)) = false := rfl

theorem any_single_joker_splash :
    ([(⟨Joker.Joker, none⟩ : JokerCard)].any
      (fun card => card.joker = Joker.Splash)) = false := rfl

theorem any_single_joker_pareidolia :
    ([(⟨Joker.Joker, none⟩ : JokerCard)].any
      (fun card => card.joker = Joker.Pareidolia)) = false := rfl

theorem any_single_joker_smeared :
    ([(⟨Joker.Joker, none⟩ : JokerCard)].any
      (fun card => card.joker = Joker.SmearedJoker)) = false := rfl

theorem filter_single_joker_scored :
    ([(⟨Joker.Joker, none⟩ : JokerCard)].filter
      (fun card => decide (card.joker ∈ on_scored_jokers))) = [] := rfl

theorem filter_single_joker_held :
    ([(⟨Joker.Joker, none⟩ : JokerCard)].filter
      (fun card => decide (card.joker ∈ on_held_jokers))) = [] := rfl

theorem filter_single_joker_independent :
    ([(⟨Joker.Joker, none⟩ : JokerCard)].filter
      (fun card => decide (card.joker ∈ independent_jokers))) =
      [⟨Joker.Joker, none⟩] := rfl

theorem joker_application_append_joker (jokers : List JokerCard)
    (held scored : List Card) (hand : PokerHand) (chip mul : ℚ)
    (h1 : ∀ jc ∈ jokers, jc.joker ≠ Joker.AbstractJoker)
    (h2 : ∀ jc ∈ jokers, jc.edition ≠ some Edition.Polychrome) :
    joker_application (jokers ++ [⟨Joker.Joker, none⟩]) held scored hand chip mul =
      (joker_application jokers held scored hand chip mul).map
        (fun p => (p.1, p.2 + 4)) := by
  simp only [joker_application, List.any_append, any_single_joker_pareidolia,
    any_single_joker_smeared, Bool.or_false, List.filter_append,
    filter_single_joker_scored, filter_single_joker_held,
    filter_single_joker_independent, List.append_nil, List.length_append,
    List.length_cons, List.length_nil, joker_pass_append_single,
    independent_step_joker, edition_pass_append_joker]
  simp only [joker_pass_indep_len held scored hand jokers (jokers.length + 1)
    jokers.length _ _ h1]
  simp only [opt_bind_some_pair, Option.map_bind, Option.map_map,
    Function.comp_def, edition_pass_add4 jokers h2, Prod.mk.eta]

/-- Claim C8 amended: appending one plain Joker joker card to a round
adds exactly 4 to mult and leaves chips unchanged, provided no joker in
the round is an AbstractJoker (whose bonus reads the joker count) and
no joker card carries a Polychrome edition (which multiplies after the
appended Joker's additive bonus). -/
theorem C8_amended (round : Round)
    (h1 : ∀ jc ∈ round.jokers, jc.joker ≠ Joker.AbstractJoker)
    (h2 : ∀ jc ∈ round.jokers, jc.edition ≠ some Edition.Polychrome) :
    score { round with jokers := round.jokers ++ [plain_joker .Joker] } =
      (score round).map (fun p => (p.1, p.2 + 4)) := by
  have hdet : determine_poker_hand round.cards_played
      (round.jokers ++ [(⟨Joker.Joker, none⟩ : JokerCard)]) =
      determine_poker_hand round.cards_played round.jokers := by
    unfold determine_poker_hand
    rw [List.any_append, any_single_joker_four_fingers, Bool.or_false]
  simp only [score, plain_joker]
  rw [hdet]
  cases hd : determine_poker_hand round.cards_played round.jokers with
  | none => simp
  | some pr =>
    obtain ⟨hand, rc⟩ := pr
    simp only [Option.map_some]
    simp only [score_pipeline, score_working_set, score_base_chips,
      List.any_append, any_single_joker_splash, Bool.or_false]
    exact joker_application_append_joker round.jokers round.cards_held_in_hand
      _ hand _ _ h1 h2

/-- Claim C8 amended witness: the plain Pair round (no jokers at all)
gains exactly 4 mult from an appended Joker. -/
theorem C8_amended_witness :
    score { pair_round with jokers := pair_round.jokers ++ [plain_joker .Joker] } =
      (score pair_round).map (fun p => (p.1, p.2 + 4)) :=
  C8_amended pair_round (by decide) (by decide)

/-- Claim C5 witness: the five-card heart run Five to Nine of Hearts. -/
theorem C5_witness :
    determine_poker_hand heart_run_cards [] =
      some (PokerHand.StraightFlush, heart_run_cards) :=
  C5_straight_flush_priority heart_run_cards [] [] [] heart_run_cards
    (by decide) (by decide) (by decide) (by decide) (by decide) (by decide)
    (by decide) (by decide) (by decide) (by decide)

end Ortalab
